import Mathlib

/-!
Car controller of rpi-devices: mode arbitration, navigation loop, scan and turn.

A shallow embedding of `src/dev/car.go`.  Go channels are FIFO lists, the
sensor and the encoder are streams indexed by the number of reads made so
far, distances (`float64`, in cm) are rationals, and every peripheral call,
delay, channel send and mode-flag write is recorded as an `Effect`.
-/

namespace RpiCar

/-! ## Data model -/

/-- The `CarOp` constants of `car.go` (lines 35-63); `other` stands for any
string that is none of the declared constants. -/
inductive CarOp
  | forward | backward | left | right | stop | pause | turn | scan
  | beep | blink
  | servoleft | servoright | servoahead
  | lighton | lightoff
  | selfdrivingon | selfdrivingoff
  | selftrackingon | selftrackingoff
  | speechdrivingon | speechdrivingoff
  | other (token : String)
  deriving DecidableEq, Repr

/-- The three top-level modes; each has one boolean flag in `Car`. -/
inductive Mode
  | selfDriving | selfTracking | speechDriving
  deriving DecidableEq, Repr

/-- Observable actions of the controller: peripheral calls, delays, channel
sends, mode-flag writes and calls into the long-running loops. -/
inductive Effect
  | engineForward | engineBackward | engineLeft | engineRight | engineStop
  | delay (ms : Nat)
  | servoRoll (angle : Int)
  | hornBeep (times interval : Nat)
  | encoderStart | encoderStop | encoderCount1
  | send (op : CarOp)
  | quit
  | writeFlag (m : Mode) (value : Bool)
  | killMotion
  | newTracker (ok : Bool)
  | runSelfDriving | runSpeechDriving
  | recognize | playSong
  | spawnDetecting
  | callScan
  | callTurn (angle : Int)
  | ultDist
  | lightOn | lightOff
  | trackerClose
  | startMotion (ok : Bool)
  | spawnStart | spawnBlink
  deriving DecidableEq, Repr

/-- The mode flags of `Car` (lines 180-182). -/
structure Flags where
  selfdriving : Bool
  speechdriving : Bool
  selftracking : Bool
  deriving DecidableEq, Repr

/-! ## Override channel poll (`selfDriving` 421-430, `speechDriving` 495-504) -/

/-- The inner loop `for len(chOp) > 0 { <-chOp }`: receives until the buffer
is empty.  Returns the buffer left over and the values received (skipped). -/
def drain : List CarOp → List CarOp × List CarOp
  | [] => ([], [])
  | p :: rest => ((drain rest).1, p :: (drain rest).2)

/-- The `select` at the top of a loop iteration.  With a value pending the
first receive `p := <-chOp` takes the head of the FIFO buffer, `op = p`, and
the rest is drained; with nothing pending the `default` branch keeps `op`.
Returns the op adopted, the buffer afterwards and the skipped values. -/
def poll (op : CarOp) (chOp : List CarOp) : CarOp × List CarOp × List CarOp :=
  match chOp with
  | p :: rest => (p, drain rest)
  | [] => (op, [], [])

/-! ## Mode controller (lines 552-618) -/

/-- Reads the flag of a mode. -/
def Flags.get (c : Flags) : Mode → Bool
  | .selfDriving => c.selfdriving
  | .selfTracking => c.selftracking
  | .speechDriving => c.speechdriving

/-- Writes the flag of a mode. -/
def Flags.set (c : Flags) : Mode → Bool → Flags
  | .selfDriving, b => { c with selfdriving := b }
  | .selfTracking, b => { c with selftracking := b }
  | .speechDriving, b => { c with speechdriving := b }

/-- The state of `NewCar`: all three flags false. -/
def Flags.init : Flags := ⟨false, false, false⟩

/-- At most one of the three mode flags is true. -/
def Flags.atMostOne (c : Flags) : Prop :=
  ¬ (c.selfdriving = true ∧ c.selftracking = true) ∧
  ¬ (c.selfdriving = true ∧ c.speechdriving = true) ∧
  ¬ (c.selftracking = true ∧ c.speechdriving = true)

instance (c : Flags) : Decidable c.atMostOne := by
  unfold Flags.atMostOne; infer_instance

/-- Performs one effect: appends it to the trace and, for a flag write,
updates the flags. -/
def emit (e : Effect) (s : Flags × List Effect) : Flags × List Effect :=
  (match e with
   | .writeFlag m b => s.1.set m b
   | _ => s.1,
   s.2 ++ [e])

/-- The helper `stopMotion` (966-971): kills the video service and sleeps one second. -/
def stopMotion (s : Flags × List Effect) : Flags × List Effect :=
  emit (.delay 1000) (emit .killMotion s)

/-- The handler `selfDrivingOn` (552-563).  The result is the flags and the trace up to the
call of the loop `c.selfDriving()`, which runs for as long as the mode lasts. -/
def selfDrivingOn (c : Flags) : Flags × List Effect :=
  if c.selfdriving then (c, [])
  else
    (c, [])
      |> emit (.writeFlag .selfTracking false)
      |> emit (.writeFlag .speechDriving false)
      |> emit (.delay 1000)
      |> emit (.writeFlag .selfDriving true)
      |> emit .runSelfDriving

/-- The handler `selfTrackingOn` (570-589); `trackerOk` says whether `cv.NewTracker`
succeeds. -/
def selfTrackingOn (trackerOk : Bool) (c : Flags) : Flags × List Effect :=
  if c.selftracking then (c, [])
  else
    let s := (c, [])
      |> stopMotion
      |> emit (.writeFlag .selfDriving false)
      |> emit (.writeFlag .speechDriving false)
      |> emit (.delay 1000)
      |> emit (.newTracker trackerOk)
    if trackerOk then
      s |> emit (.writeFlag .selfTracking true) |> emit .runSelfDriving
    else s

/-- The handler `speechDrivingOn` (602-613). -/
def speechDrivingOn (c : Flags) : Flags × List Effect :=
  if c.speechdriving then (c, [])
  else
    (c, [])
      |> emit (.writeFlag .selfDriving false)
      |> emit (.writeFlag .selfTracking false)
      |> emit (.delay 1000)
      |> emit (.writeFlag .speechDriving true)
      |> emit .runSpeechDriving

/-- The Enable operation of a mode. -/
def enable (m : Mode) (trackerOk : Bool) (c : Flags) : Flags × List Effect :=
  match m with
  | .selfDriving => selfDrivingOn c
  | .selfTracking => selfTrackingOn trackerOk c
  | .speechDriving => speechDrivingOn c

/-- Total of the delays in a trace, in milliseconds. -/
def delaySum : List Effect → Nat
  | [] => 0
  | .delay ms :: rest => ms + delaySum rest
  | _ :: rest => delaySum rest

/-! ### Interleaved execution of the mode tasks

`start` (224-265) runs every mode command as its own goroutine
(`go c.selfDrivingOn()` ...), so the statements of several tasks interleave.
A task is a mode command with a program counter; one step executes one
statement. -/

/-- Program counter of a mode task. -/
inductive Pc
  | check | stopMotion | clearFirst | clearSecond | wait | newTracker | setOwn
  | loop | clearOwn | tail | done
  deriving DecidableEq, Repr

/-- A running goroutine: an Enable (`enabling = true`) or a Disable of a mode. -/
structure Task where
  enabling : Bool
  mode : Mode
  pc : Pc
  deriving DecidableEq, Repr

/-- One statement of `selfDrivingOn`. -/
def stepSelfDrivingOn (c : Flags) : Pc → Flags × Pc
  | .check => if c.selfdriving then (c, .done) else (c, .clearFirst)
  | .clearFirst => ({ c with selftracking := false }, .clearSecond)
  | .clearSecond => ({ c with speechdriving := false }, .wait)
  | .wait => (c, .setOwn)
  | .setOwn => ({ c with selfdriving := true }, .loop)
  | .loop => if c.selfdriving || c.selftracking then (c, .loop) else (c, .done)
  | _ => (c, .done)

/-- One statement of `selfTrackingOn`. -/
def stepSelfTrackingOn (trackerOk : Bool) (c : Flags) : Pc → Flags × Pc
  | .check => if c.selftracking then (c, .done) else (c, .stopMotion)
  | .stopMotion => (c, .clearFirst)
  | .clearFirst => ({ c with selfdriving := false }, .clearSecond)
  | .clearSecond => ({ c with speechdriving := false }, .wait)
  | .wait => (c, .newTracker)
  | .newTracker => if trackerOk then (c, .setOwn) else (c, .done)
  | .setOwn => ({ c with selftracking := true }, .loop)
  | .loop => if c.selfdriving || c.selftracking then (c, .loop) else (c, .done)
  | _ => (c, .done)

/-- One statement of `speechDrivingOn`. -/
def stepSpeechDrivingOn (c : Flags) : Pc → Flags × Pc
  | .check => if c.speechdriving then (c, .done) else (c, .clearFirst)
  | .clearFirst => ({ c with selfdriving := false }, .clearSecond)
  | .clearSecond => ({ c with selftracking := false }, .wait)
  | .wait => (c, .setOwn)
  | .setOwn => ({ c with speechdriving := true }, .loop)
  | .loop => if c.speechdriving then (c, .loop) else (c, .done)
  | _ => (c, .done)

/-- One statement of a Disable task (565-568, 591-600, 615-618): the flag is
cleared first; what `selfTrackingOff` does afterwards touches no flag. -/
def stepOff (m : Mode) (c : Flags) : Pc → Flags × Pc
  | .clearOwn => (c.set m false, .tail)
  | _ => (c, .done)

/-- One statement of a task. -/
def Task.step (trackerOk : Bool) (c : Flags) (t : Task) : Flags × Task :=
  let r := match t.enabling, t.mode with
    | true, .selfDriving => stepSelfDrivingOn c t.pc
    | true, .selfTracking => stepSelfTrackingOn trackerOk c t.pc
    | true, .speechDriving => stepSpeechDrivingOn c t.pc
    | false, m => stepOff m c t.pc
  (r.1, { t with pc := r.2 })

/-- The flags together with the goroutines spawned so far. -/
structure Sys where
  flags : Flags
  tasks : List Task
  deriving DecidableEq, Repr

/-- What happens next: the dispatcher takes a command off the queue, or the
task with the given index executes its next statement. -/
inductive Sched
  | dispatch (op : CarOp)
  | run (i : Nat) (trackerOk : Bool)
  deriving DecidableEq, Repr

/-- The goroutine `start` spawns for a mode command; no task for any other
command. -/
def spawnOf : CarOp → Option Task
  | .selfdrivingon => some ⟨true, .selfDriving, .check⟩
  | .selfdrivingoff => some ⟨false, .selfDriving, .clearOwn⟩
  | .selftrackingon => some ⟨true, .selfTracking, .check⟩
  | .selftrackingoff => some ⟨false, .selfTracking, .clearOwn⟩
  | .speechdrivingon => some ⟨true, .speechDriving, .check⟩
  | .speechdrivingoff => some ⟨false, .speechDriving, .clearOwn⟩
  | _ => none

/-- One scheduling step. -/
def Sys.exec (s : Sys) : Sched → Sys
  | .dispatch op =>
    match spawnOf op with
    | some t => { s with tasks := s.tasks ++ [t] }
    | none => s
  | .run i trackerOk =>
    match s.tasks.get? i with
    | some t =>
      let r := t.step trackerOk s.flags
      { flags := r.1, tasks := s.tasks.set i r.2 }
    | none => s

/-- Runs a schedule from a state. -/
def Sys.runSched (s : Sys) (sched : List Sched) : Sys :=
  sched.foldl Sys.exec s

/-- The system at vehicle start: flags false, no mode task. -/
def Sys.init : Sys := ⟨Flags.init, []⟩

/-! ## ScanSweep (`scan`, lines 835-862) -/

/-- The preset angles `scanningAngles` (line 66). -/
def scanningAngles : List Int := [-90, -75, -60, -45, -30, 30, 45, 60, 75, 90]

/-- The named results of `scan`. -/
structure ScanResult where
  mind : ℚ
  maxd : ℚ
  mindAngle : Int
  maxdAngle : Int
  deriving DecidableEq, Repr

/-- The values before the sweep: `mind = 9999`, `maxd = -9999`, and the zero
value of `int` for both angles. -/
def ScanResult.init : ScanResult := ⟨9999, -9999, 0, 0⟩

/-- The retry loop `for i := 0; d < 0 && i < 3; i++ { d = c.ult.Dist() }`
(842-845), counted down: `n` is `3 - i`.  The sensor is a stream, `k` the
number of reads made so far.  Returns the last reading and the new count. -/
def retryDist (sensor : Nat → ℚ) : Nat → ℚ → Nat → ℚ × Nat
  | 0, d, k => (d, k)
  | n + 1, d, k => if d < 0 then retryDist sensor n (sensor k) (k + 1) else (d, k)

/-- The reading taken at one angle (841-845): one read and up to three
retries. -/
def measure (sensor : Nat → ℚ) (k : Nat) : ℚ × Nat :=
  retryDist sensor 3 (sensor k) (k + 1)

/-- The two updates of lines 850-857 for a valid reading `d` at `ang`. -/
def ScanResult.update (r : ScanResult) (d : ℚ) (ang : Int) : ScanResult :=
  let r1 := if d < r.mind then { r with mind := d, mindAngle := ang } else r
  if d > r1.maxd then { r1 with maxd := d, maxdAngle := ang } else r1

/-- The loop over the angles (838-858): a negative reading is skipped
(`continue`), any other updates the result. -/
def scanLoop (sensor : Nat → ℚ) : List Int → ScanResult → Nat → ScanResult × Nat
  | [], r, k => (r, k)
  | ang :: rest, r, k =>
    if (measure sensor k).1 < 0 then scanLoop sensor rest r (measure sensor k).2
    else scanLoop sensor rest (r.update (measure sensor k).1 ang) (measure sensor k).2

/-- The function `scan`: the sweep over `scanningAngles` from the initial
values, for a sensor stream read from position 0. -/
def scan (sensor : Nat → ℚ) : ScanResult :=
  (scanLoop sensor scanningAngles ScanResult.init 0).1

/-- The reading each angle ends with during the sweep, in sweep order. -/
def sweepReadings (sensor : Nat → ℚ) : List Int → Nat → List (Int × ℚ)
  | [], _ => []
  | ang :: rest, k =>
    (ang, (measure sensor k).1) :: sweepReadings sensor rest (measure sensor k).2

/-- The valid (non-negative) readings of a sweep with the angle of each. -/
def validReadings (sensor : Nat → ℚ) : List (Int × ℚ) :=
  (sweepReadings sensor scanningAngles 0).filter (fun p => decide (0 ≤ p.2))

/-- What C3 asks of a scan result: `mind` is the minimum and `maxd` the maximum
of the valid readings, each read at the angle returned with it. -/
def ScanCorrect (sensor : Nat → ℚ) : Prop :=
  ((scan sensor).mindAngle, (scan sensor).mind) ∈ validReadings sensor ∧
  (∀ p ∈ validReadings sensor, (scan sensor).mind ≤ p.2) ∧
  ((scan sensor).maxdAngle, (scan sensor).maxd) ∈ validReadings sensor ∧
  (∀ p ∈ validReadings sensor, p.2 ≤ (scan sensor).maxd)

/-- A sensor that answers the given readings in order, and 0 afterwards. -/
def sensorOf (readings : List ℚ) : Nat → ℚ :=
  fun k => readings.getD k 0

/-! ## Navigation loop: the `scan` case (lines 448-458) -/

/-- The decision after a sweep: the op sent to `chOp` and the new `retry`. -/
def scanTransition (mind : ℚ) (mindAngle : Int) (retry : Int) : CarOp × Int :=
  if mind < 10 ∧ mindAngle ≠ 90 ∧ mindAngle ≠ -90 ∧ retry < 4 then
    (.backward, retry + 1)
  else
    (.turn, 0)

/-! ## ObstacleWatcher (`detectObstacles`, lines 655-667) -/

/-- What the watcher does with the reading `d` taken at a sweep position: the
sends on `chOp` and `chQuit` before it returns, or nothing when the sweep goes
on. -/
def obstacleReact (d : ℚ) : List Effect :=
  if d < 10 then [.send .backward, .quit, .quit]
  else if d < 40 then [.send .stop, .quit, .quit]
  else []

/-! ## TurnCalibrator (`turn`, lines 864-884) -/

/-- The map `turnAngleCounts` (67-78). -/
def turnAngleCounts : List (Int × Nat) :=
  [(-90, 20), (-75, 17), (-60, 14), (-45, 10), (-30, 7),
   (30, 5), (45, 8), (60, 10), (75, 13), (90, 17)]

/-- Arithmetic of the Go type `int` on a 64-bit platform: the result of an
addition is reduced into the range from -2^63 to 2^63 - 1. -/
def wrapInt (x : Int) : Int :=
  (x + 2 ^ 63) % 2 ^ 64 - 2 ^ 63

/-- The loop `for i := 0; i < n; { i += c.encoder.Count1() }`.  The encoder is
a stream of non-negative pulse counts (what one `Count1` call returns), `k` the
number of `Count1` calls made so far, `i` the Go `int` counter, whose addition
wraps around.  Returns the number of calls made when the loop exits, `none`
when the fuel runs out first. -/
def countLoop (pulses : Nat → Nat) (n : Nat) : Nat → Int → Nat → Option Nat
  | 0, i, k => if i < (n : Int) then none else some k
  | fuel + 1, i, k =>
    if i < (n : Int) then
      countLoop pulses n fuel (wrapInt (i + (pulses k : Int))) (k + 1)
    else some k

/-- The function `turn`: its trace of motor and encoder calls.  The deferred
`c.encoder.Stop()` runs last. -/
def turn (pulses : Nat → Nat) (fuel : Nat) (angle : Int) : Option (List Effect) :=
  match turnAngleCounts.lookup angle with
  | none => some []
  | some n =>
    match countLoop pulses n fuel 0 0 with
    | none => none
    | some k =>
      some ((if angle < 0 then Effect.engineLeft else Effect.engineRight) ::
        Effect.encoderStart :: (List.replicate k Effect.encoderCount1 ++
          [Effect.engineStop, Effect.encoderStop]))

/-- Sum of the first `m` pulse counts. -/
def pulseSum (pulses : Nat → Nat) : Nat → Nat
  | 0 => 0
  | m + 1 => pulseSum pulses m + pulses m

/-- An encoder that answers 10, then 2^63 - 1 twice, then 1 at every read. -/
def wrappingPulses : Nat → Nat :=
  fun k => if k = 0 then 10 else if k ≤ 2 then 2 ^ 63 - 1 else 1

/-! ## Speech keywords (`detectSpeech`, lines 809-826) -/

/-- Search of `strings.Index`: the position of the first occurrence of `sub`
in the text at or after position `i`, or -1. -/
def indexFrom (sub : List Char) : List Char → Nat → Int
  | [], i => if sub.isPrefixOf [] then (i : Int) else -1
  | c :: t, i => if sub.isPrefixOf (c :: t) then (i : Int) else indexFrom sub t (i + 1)

/-- The library function `strings.Index(s, sub)`, on texts as sequences of
characters; only the sign of the result is used by the caller. -/
def stringsIndex (s sub : String) : Int :=
  indexFrom sub.data s.data 0

/-- The `switch` of lines 809-826 on the recognised text: the op sent to
`chOp`, the call of `c.recognize()`, the song played, or nothing. -/
def speechSwitch (text : String) : List Effect :=
  if stringsIndex text "前" ≥ 0 then [.send .forward]
  else if stringsIndex text "后" ≥ 0 then [.send .backward]
  else if stringsIndex text "左" ≥ 0 then [.send .left]
  else if stringsIndex text "右" ≥ 0 then [.send .right]
  else if stringsIndex text "停" ≥ 0 then [.send .stop]
  else if stringsIndex text "是什么" ≥ 0 then [.recognize]
  else if stringsIndex text "唱歌" ≥ 0 then [.playSong]
  else []

/-- The keyword table as the specification words it: forward, back, left,
right, stop, what-is-this, sing, in priority order, each with its command. -/
def keywordTable : List (String × Effect) :=
  [("前", .send .forward), ("后", .send .backward), ("左", .send .left),
   ("右", .send .right), ("停", .send .stop), ("是什么", .recognize),
   ("唱歌", .playSong)]

/-- The command of the specification: that of the first keyword of the table
occurring as a substring of the text, if any. -/
def firstKeyword (text : String) : Option Effect :=
  (keywordTable.find? (fun kw => decide (kw.1.data <:+: text.data))).map (fun kw => kw.2)

/-! ## Dispatcher (`start`, lines 224-265) -/

/-- The handler methods of `Car` that `start` can invoke. -/
inductive Handler
  | forward | backward | left | right | stop | beep
  | servoLeft | servoRight | servoAhead | lightOn | lightOff
  | selfDrivingOn | selfDrivingOff | selfTrackingOn | selfTrackingOff
  | speechDrivingOn | speechDrivingOff
  deriving DecidableEq, Repr

/-- What `start` does with one op: a direct call of a handler, a handler run
as a goroutine, or the `default` branch that logs an invalid op. -/
inductive Dispatched
  | call (h : Handler)
  | spawn (h : Handler)
  | invalidOp
  deriving DecidableEq, Repr

/-- The `switch op` of `start` (226-263). -/
def dispatchOp : CarOp → Dispatched
  | .forward => .call .forward
  | .backward => .call .backward
  | .left => .call .left
  | .right => .call .right
  | .stop => .call .stop
  | .beep => .spawn .beep
  | .servoleft => .spawn .servoLeft
  | .servoright => .spawn .servoRight
  | .servoahead => .spawn .servoAhead
  | .lighton => .spawn .lightOn
  | .lightoff => .spawn .lightOff
  | .selfdrivingon => .spawn .selfDrivingOn
  | .selfdrivingoff => .spawn .selfDrivingOff
  | .selftrackingon => .spawn .selfTrackingOn
  | .selftrackingoff => .spawn .selfTrackingOff
  | .speechdrivingon => .spawn .speechDrivingOn
  | .speechdrivingoff => .spawn .speechDrivingOff
  | _ => .invalidOp

/-- The Command vocabulary: the `CarOp` constants of lines 35-63. -/
def vocabulary : List CarOp :=
  [.forward, .backward, .left, .right, .stop, .pause, .turn, .scan, .beep, .blink,
   .servoleft, .servoright, .servoahead, .lighton, .lightoff,
   .selfdrivingon, .selfdrivingoff, .selftrackingon, .selftrackingoff,
   .speechdrivingon, .speechdrivingoff]

/-! ## Optional peripherals -/

/-- Which optional parts a car was built with (`true`: the field is not nil). -/
structure Car where
  horn : Bool
  light : Bool
  servo : Bool
  tracker : Bool
  ult : Bool
  deriving DecidableEq, Repr

/-- The optional peripherals the specification names. -/
inductive Peripheral
  | horn | light | servo | tracker
  deriving DecidableEq, Repr

/-- Presence of a peripheral. -/
def Car.has (car : Car) : Peripheral → Bool
  | .horn => car.horn
  | .light => car.light
  | .servo => car.servo
  | .tracker => car.tracker

/-- The peripheral a method call is made on, if the effect is such a call. -/
def Effect.target : Effect → Option Peripheral
  | .hornBeep _ _ => some .horn
  | .lightOn => some .light
  | .lightOff => some .light
  | .servoRoll _ => some .servo
  | .trackerClose => some .tracker
  | _ => none

/-- Whether a trace holds a call on a peripheral the car does not have. -/
def callsMissing (car : Car) (tr : List Effect) : Bool :=
  tr.any (fun e =>
    match e.target with
    | some p => !car.has p
    | none => false)

/-- The handler `beep` (306-312). -/
def beep (car : Car) : List Effect :=
  if car.horn = false then [] else [.hornBeep 5 100]

/-- The handler `lightOn` (324-330). -/
def lightOn (car : Car) : List Effect :=
  if car.light = false then [] else [.lightOn]

/-- The handler `lightOff` (332-338). -/
def lightOff (car : Car) : List Effect :=
  if car.light = false then [] else [.lightOff]

/-- The handler `servoLeft` (340-351): the angle stored in `c.servoAngle` and
the trace. -/
def servoLeft (car : Car) (servoAngle : Int) : Int × List Effect :=
  let angle := servoAngle - 15
  let angle := if angle < -90 then -90 else angle
  (angle, if car.servo = false then [] else [.servoRoll angle])

/-- The handler `servoRight` (353-364). -/
def servoRight (car : Car) (servoAngle : Int) : Int × List Effect :=
  let angle := servoAngle + 15
  let angle := if angle > 90 then 90 else angle
  (angle, if car.servo = false then [] else [.servoRoll angle])

/-- The handler `servoAhead` (366-373). -/
def servoAhead (car : Car) (_servoAngle : Int) : Int × List Effect :=
  (0, if car.servo = false then [] else [.servoRoll 0])

/-- The stored servo angle after one dispatched op: only the three servo
handlers write `c.servoAngle`. -/
def servoStep (car : Car) (servoAngle : Int) : CarOp → Int
  | .servoleft => (servoLeft car servoAngle).1
  | .servoright => (servoRight car servoAngle).1
  | .servoahead => (servoAhead car servoAngle).1
  | _ => servoAngle

/-- The stored servo angle after a sequence of ops, handlers run in order. -/
def servoRun (car : Car) (servoAngle : Int) (ops : List CarOp) : Int :=
  ops.foldl (servoStep car) servoAngle

/-- Entry of `selfDriving` (400-407): without the distance sensor it returns;
otherwise the warning `c.horn.Beep(3, 300)` is called before the loop. -/
def selfDrivingEntry (car : Car) : List Effect :=
  if car.ult = false then [] else [.hornBeep 3 300]

/-- The method `Start` (200-205): three goroutines, one of them
`c.servo.Roll(0)`. -/
def startCar (_car : Car) : List Effect :=
  [.spawnStart, .servoRoll 0, .spawnBlink]

/-- The handler `selfTrackingOff` (591-600); `motionOk` says whether the video
service starts, in which case `startMotion` sleeps one second. -/
def selfTrackingOff (_car : Car) (motionOk : Bool) : List Effect :=
  [.writeFlag .selfTracking false, .trackerClose, .delay 500, .startMotion motionOk] ++
    (if motionOk then [.delay 1000] else [])

/-- The trace of the retry loop (842-845), counted down as in `retryDist`. -/
def retryTrace (sensor : Nat → ℚ) : Nat → ℚ → Nat → List Effect
  | 0, _, _ => []
  | n + 1, d, k =>
    if d < 0 then .delay 120 :: .ultDist :: retryTrace sensor n (sensor k) (k + 1) else []

/-- The trace of the angle loop of `scan` (838-858). -/
def scanLoopTrace (sensor : Nat → ℚ) : List Int → Nat → List Effect
  | [], _ => []
  | ang :: rest, k =>
    [.servoRoll ang, .delay 120, .ultDist] ++ retryTrace sensor 3 (sensor k) (k + 1) ++
      scanLoopTrace sensor rest (measure sensor k).2

/-- The trace of `scan` (835-862): the sweep, then the servo back to 0. -/
def scanTrace (sensor : Nat → ℚ) : List Effect :=
  scanLoopTrace sensor scanningAngles 0 ++ [.servoRoll 0, .delay 50]

/-! ## Watchers (`detecting`, lines 620-772) -/

/-- The watcher goroutines. -/
inductive Watcher
  | collision | obstacles | tracking
  deriving DecidableEq, Repr

/-- The watchers `detecting` spawns (625-634): collision and obstacles, and
the tracking watcher when `c.selftracking` is set. -/
def detecting (selftracking : Bool) : List Watcher :=
  [.collision, .obstacles] ++ (if selftracking then [.tracking] else [])

/-- The number of other watchers running beside one of them. -/
def siblings (selftracking : Bool) : Nat :=
  (detecting selftracking).length - 1

/-- The number of `chQuit <- true` sends in a trace. -/
def quitCount (tr : List Effect) : Nat :=
  tr.count Effect.quit

/-- The loop over the switches in `detectCollision` (684-693) for the given
`Collided()` answers: at the first tripped switch the watcher posts backward,
beeps, signals quit and returns; with none tripped it does nothing (and polls
again after 10 ms). -/
def collisionReact : List Bool → List Effect
  | [] => []
  | true :: _ => [.send .backward, .hornBeep 1 100, .quit, .quit]
  | false :: rest => collisionReact rest

/-- What `trackingObj` does at the first acquisition of the target
(716-721). -/
def trackingFound : List Effect :=
  [.quit, .quit, .send .pause, .engineStop]

/-- A located target: `rect.Max.Y` and the x of `MiddleXY(rect)`. -/
structure Sight where
  maxY : Int
  midX : Int
  deriving DecidableEq, Repr

/-- The steering pulse of lines 751-768 for the x position of the target. -/
def steer (x : Int) : List Effect :=
  if x < 200 then [.engineRight, .delay 100, .engineStop]
  else if x > 400 then [.engineLeft, .delay 100, .engineStop]
  else [.engineForward, .delay 100, .engineStop]

/-- The inner loop of `trackingObj` (724-769) while `c.selftracking` stays
set, over the answers of `c.tracker.Locate()` (`none`: target lost).  The
arguments are the variables `angle` and `firstTime`.  Returns the trace and
whether the watcher returned (the give-up of 736-737); `callTurn 30` is the
call `c.turn(30)`. -/
def trackInner : Int → Bool → List (Option Sight) → List Effect × Bool
  | _, _, [] => ([], false)
  | angle, _, none :: rest =>
    if angle < 360 then
      (.callTurn 30 :: .delay 200 :: (trackInner (angle + 30) true rest).1,
        (trackInner (angle + 30) true rest).2)
    else ([.send .scan], true)
  | _, firstTime, some s :: rest =>
    if s.maxY > 580 then
      (.engineStop :: .hornBeep 1 300 :: (trackInner 0 firstTime rest).1,
        (trackInner 0 firstTime rest).2)
    else
      ((if firstTime then [.hornBeep 2 100] else []) ++ steer s.midX ++
          (trackInner 0 false rest).1,
        (trackInner 0 false rest).2)

/-- The trace of `m` search turns of lines 731-733: `c.turn(30)` and a delay
of 200 ms each. -/
def searchTurns : Nat → List Effect
  | 0 => []
  | m + 1 => .callTurn 30 :: .delay 200 :: searchTurns m

/-! ## Navigation loop (`selfDriving`, lines 409-478) -/

/-- The local variables of `selfDriving` (409-418).  Sends on `chOp` are
appended to the buffer; its capacity of 4 is not modelled. -/
structure NavVars where
  fwd : Bool
  retry : Int
  mindAngle : Int
  maxdAngle : Int
  mind : ℚ
  maxd : ℚ
  op : CarOp
  chOp : List CarOp
  deriving DecidableEq, Repr

/-- The variables at loop entry: zero values, `op = forward`, empty channel. -/
def NavVars.init : NavVars := ⟨false, 0, 0, 0, 0, 0, .forward, []⟩

/-- The `switch op` of `selfDriving` (433-477).  The sensor stream is the one
read by `c.scan()` in this iteration; `callScan` and `callTurn` are the calls
`c.scan()` and `c.turn(maxdAngle)`. -/
def selfDrivingBody (sensor : Nat → ℚ) (v : NavVars) : NavVars × List Effect :=
  match v.op with
  | .backward =>
    ({ v with fwd := false, chOp := v.chOp ++ [.stop] },
      [.engineStop, .delay 20, .engineBackward, .delay 500, .send .stop])
  | .stop =>
    ({ v with fwd := false, chOp := v.chOp ++ [.scan] },
      [.engineStop, .delay 20, .send .scan])
  | .scan =>
    ({ v with
        fwd := false
        mind := (scan sensor).mind
        maxd := (scan sensor).maxd
        mindAngle := (scan sensor).mindAngle
        maxdAngle := (scan sensor).maxdAngle
        chOp := v.chOp ++ [(scanTransition (scan sensor).mind (scan sensor).mindAngle v.retry).1]
        retry := (scanTransition (scan sensor).mind (scan sensor).mindAngle v.retry).2 },
      [.callScan,
       .send (scanTransition (scan sensor).mind (scan sensor).mindAngle v.retry).1])
  | .turn =>
    ({ v with fwd := false, chOp := v.chOp ++ [.forward] },
      [.callTurn v.maxdAngle, .delay 150, .send .forward])
  | .forward =>
    if v.fwd then (v, [.delay 50])
    else ({ v with fwd := true }, [.engineForward, .spawnDetecting, .delay 50])
  | .pause => ({ v with fwd := false }, [.delay 500])
  | _ => (v, [])

/-- What one iteration receives from outside: the overrides the watchers put
on the channel after the send that ended the previous iteration and before
this poll, and the sensor stream a scan would read.  An override that arrives
while a body is still running, ahead of that body's own send, is outside this
model. -/
structure IterInput where
  posted : List CarOp
  sensor : Nat → ℚ

/-- One iteration of the loop: the poll of the channel (what the previous body
sent, then what was posted after it), then the switch. -/
def selfDrivingIter (i : IterInput) (v : NavVars) : NavVars × List Effect :=
  selfDrivingBody i.sensor
    { v with
      op := (poll v.op (v.chOp ++ i.posted)).1
      chOp := (poll v.op (v.chOp ++ i.posted)).2.1 }

/-- Consecutive iterations, one per input, with the trace of all of them. -/
def selfDrivingRun : List IterInput → NavVars → NavVars × List Effect
  | [], v => (v, [])
  | i :: rest, v =>
    ((selfDrivingRun rest (selfDrivingIter i v).1).1,
      (selfDrivingIter i v).2 ++ (selfDrivingRun rest (selfDrivingIter i v).1).2)

/-- The ops of the navigation loop other than forward. -/
def navOpsNotForward : List CarOp := [.backward, .stop, .scan, .turn, .pause]

/-! ## Speech-driving loop (`speechDriving`, lines 507-545) -/

/-- The `switch op` of `speechDriving`: the new value of `fwd` and the trace;
`spawnDetecting` is `go c.detecting(chOp)`. -/
def speechDrivingBody (fwd : Bool) : CarOp → Bool × List Effect
  | .forward =>
    if fwd then (fwd, [.delay 50])
    else (true, [.engineForward, .spawnDetecting, .delay 50])
  | .backward =>
    (false, [.engineStop, .delay 20, .engineBackward, .delay 600, .send .stop])
  | .left =>
    (false, [.engineStop, .delay 20, .callTurn (-90), .delay 20, .send .forward])
  | .right =>
    (false, [.engineStop, .delay 20, .callTurn 90, .delay 20, .send .forward])
  | .stop => (false, [.engineStop, .delay 500])
  | _ => (fwd, [])

/-- Consecutive iterations of the switch of `speechDriving`, one per op
processed, from the marker `fwd`: the marker at the end and the whole trace. -/
def speechDrivingRun : Bool → List CarOp → Bool × List Effect
  | fwd, [] => (fwd, [])
  | fwd, op :: rest =>
    ((speechDrivingRun (speechDrivingBody fwd op).1 rest).1,
      (speechDrivingBody fwd op).2 ++ (speechDrivingRun (speechDrivingBody fwd op).1 rest).2)

/-- The ops that reach the channel of `speechDriving`: those of the speech
keywords and of the two watchers. -/
def speechOps : List CarOp := [.forward, .backward, .left, .right, .stop]

/-- Whether the car is moving forward after a sequence of ops, in the words of
the specification: it is when the last op processed is forward, and as it was
before when no op has been processed. -/
def movingAfter : Bool → List CarOp → Bool
  | moving, [] => moving
  | _, op :: rest => movingAfter (decide (op = CarOp.forward)) rest

/-- The number of ops of a sequence that are forward and find the car not
already moving forward. -/
def forwardEntries : Bool → List CarOp → Nat
  | _, [] => 0
  | moving, op :: rest =>
    (if op = CarOp.forward ∧ moving = false then 1 else 0) +
      forwardEntries (decide (op = CarOp.forward)) rest

/-- The handler a token corresponds to in the specification: the method of
`Car` that carries the name of the token. -/
def correspondingHandler : CarOp → Option Handler
  | .forward => some .forward
  | .backward => some .backward
  | .left => some .left
  | .right => some .right
  | .stop => some .stop
  | .beep => some .beep
  | .servoleft => some .servoLeft
  | .servoright => some .servoRight
  | .servoahead => some .servoAhead
  | .lighton => some .lightOn
  | .lightoff => some .lightOff
  | .selfdrivingon => some .selfDrivingOn
  | .selfdrivingoff => some .selfDrivingOff
  | .selftrackingon => some .selfTrackingOn
  | .selftrackingoff => some .selfTrackingOff
  | .speechdrivingon => some .speechDrivingOn
  | .speechdrivingoff => some .speechDrivingOff
  | _ => none

/-- The motion commands, which the specification runs on the dispatch task. -/
def motionOps : List CarOp := [.forward, .backward, .left, .right, .stop]

/-- The tokens of the vocabulary without a case in `start`. -/
def unhandledOps : List CarOp := [.pause, .turn, .scan, .blink]

/-! ## Self-driving on a given car (`selfDrivingOn`, `selfDriving`, `GetState`) -/

/-- The method `GetState` (219-222): self-driving, self-tracking,
speech-driving, in that order. -/
def getState (c : Flags) : Bool × Bool × Bool :=
  (c.selfdriving, c.selftracking, c.speechdriving)

/-- The handler `selfDrivingOn` on a given car, with its call of
`c.selfDriving()` followed up to the loop of line 420: the flags, the trace
(the `runSelfDriving` call, then what `selfDriving` does before its loop), and
whether that loop is entered, which needs the distance sensor (401-404). -/
def selfDrivingOnWith (car : Car) (c : Flags) : Flags × List Effect × Bool :=
  if c.selfdriving then (c, [], false)
  else ((selfDrivingOn c).1, (selfDrivingOn c).2 ++ selfDrivingEntry car,
    if car.ult = false then false else true)

/-- Whether an effect is a call on the horn, the motor or the servo. -/
def Effect.isActuation : Effect → Bool
  | .engineForward => true
  | .engineBackward => true
  | .engineLeft => true
  | .engineRight => true
  | .engineStop => true
  | .servoRoll _ => true
  | .hornBeep _ _ => true
  | _ => false

/-! ## Theorems -/

theorem drain_eq (ch : List CarOp) : drain ch = ([], ch) := by
  induction ch with
  | nil => rfl
  | cons p rest ih => simp [drain, ih]

/-- C1 (as the code has it): for every non-empty sequence of overrides pending
when the loop polls, the op adopted is the one enqueued first (the head of the
FIFO buffer); every later one is received and skipped and the buffer is left
empty. -/
theorem poll_adopts_oldest (op p : CarOp) (rest : List CarOp) :
    poll op (p :: rest) = (p, [], rest) := by
  simp [poll, drain_eq]

/-- C1 counterexample: with stop, backward, scan posted in that order the poll
adopts stop (not scan, the most recent) and skips backward and scan. -/
theorem poll_latest_counterexample :
    (poll CarOp.forward [CarOp.stop, CarOp.backward, CarOp.scan]).1 = CarOp.stop ∧
    (poll CarOp.forward [CarOp.stop, CarOp.backward, CarOp.scan]).1 ≠
      [CarOp.stop, CarOp.backward, CarOp.scan].getLast (by simp) := by
  decide

/-! ### Mode controller -/

/-- An Enable that runs without interference keeps the flags exclusive. -/
theorem enable_atMostOne (m : Mode) (ok : Bool) (c : Flags) (h : c.atMostOne) :
    (enable m ok c).1.atMostOne := by
  rcases c with ⟨a, b, d⟩
  cases m <;> cases ok <;> cases a <;> cases b <;> cases d <;> first | decide | exact absurd h (by decide)

/-- C2 (the code breaks it): two Enable tasks whose statements interleave.
After `selfdrivingon` and `speechdrivingon` are dispatched, the first task
checks its flag, clears the other two and waits; the second does the same; then
each sets its own flag.  The state reached has selfDriving and speechDriving
both true. -/
theorem mode_exclusion_race :
    (Sys.init.runSched
      [.dispatch .selfdrivingon, .dispatch .speechdrivingon,
       .run 0 true, .run 0 true, .run 0 true, .run 0 true,
       .run 1 true, .run 1 true, .run 1 true, .run 1 true,
       .run 0 true, .run 1 true]).flags = ⟨true, true, false⟩ ∧
    ¬ (Sys.init.runSched
      [.dispatch .selfdrivingon, .dispatch .speechdrivingon,
       .run 0 true, .run 0 true, .run 0 true, .run 0 true,
       .run 1 true, .run 1 true, .run 1 true, .run 1 true,
       .run 0 true, .run 1 true]).flags.atMostOne := by
  decide

/-- C8: when Enable A starts in a state where a different mode B is active
and A is not (tracker creation succeeding), its trace writes false to the flag
of B, later writes true to the flag of A, the delays in between add up to at
least 1000 ms, and at the end the flag of A is true and that of B false. -/
theorem enable_handover (A B : Mode) (c : Flags) (hAB : A ≠ B)
    (hA : c.get A = false) (hB : c.get B = true) :
    ∃ pre mid post,
      (enable A true c).2 =
        pre ++ [Effect.writeFlag B false] ++ mid ++ [Effect.writeFlag A true] ++ post ∧
      1000 ≤ delaySum mid ∧
      (enable A true c).1.get A = true ∧ (enable A true c).1.get B = false := by
  rcases c with ⟨a, b, d⟩
  cases A <;> cases B <;> cases a <;> cases b <;> cases d <;>
    first
    | exact absurd rfl hAB
    | exact absurd hB (by decide)
    | exact absurd hA (by decide)
    | exact ⟨[], [.writeFlag .speechDriving false, .delay 1000], [.runSelfDriving],
        by decide, by decide, by decide, by decide⟩
    | exact ⟨[.writeFlag .selfTracking false], [.delay 1000], [.runSelfDriving],
        by decide, by decide, by decide, by decide⟩
    | exact ⟨[.killMotion, .delay 1000],
        [.writeFlag .speechDriving false, .delay 1000, .newTracker true],
        [.runSelfDriving], by decide, by decide, by decide, by decide⟩
    | exact ⟨[.killMotion, .delay 1000, .writeFlag .selfDriving false],
        [.delay 1000, .newTracker true],
        [.runSelfDriving], by decide, by decide, by decide, by decide⟩
    | exact ⟨[], [.writeFlag .selfTracking false, .delay 1000], [.runSpeechDriving],
        by decide, by decide, by decide, by decide⟩
    | exact ⟨[.writeFlag .selfDriving false], [.delay 1000], [.runSpeechDriving],
        by decide, by decide, by decide, by decide⟩

/-- C8 witness: self-tracking is enabled while self-driving is active. -/
theorem enable_handover_witness :
    ∃ pre mid post,
      (enable .selfTracking true ⟨true, false, false⟩).2 =
        pre ++ [Effect.writeFlag .selfDriving false] ++ mid ++
          [Effect.writeFlag .selfTracking true] ++ post ∧
      1000 ≤ delaySum mid ∧
      (enable .selfTracking true ⟨true, false, false⟩).1.get .selfTracking = true ∧
      (enable .selfTracking true ⟨true, false, false⟩).1.get .selfDriving = false :=
  enable_handover .selfTracking .selfDriving ⟨true, false, false⟩
    (by decide) (by decide) (by decide)

/-- C9: Enable of a mode whose flag is already true returns at once: the flags
are unchanged and the trace is empty (no delay, no peripheral or service call,
no entry into the loop). -/
theorem enable_noop (m : Mode) (ok : Bool) (c : Flags) (h : c.get m = true) :
    enable m ok c = (c, []) := by
  cases m <;> simp only [Flags.get] at h <;>
    simp [enable, selfDrivingOn, selfTrackingOn, speechDrivingOn, h]

/-- C9 witness: speech-driving enabled twice. -/
theorem enable_noop_witness :
    Flags.get ⟨false, true, false⟩ .speechDriving = true ∧
    enable .speechDriving true ⟨false, true, false⟩ = (⟨false, true, false⟩, []) :=
  ⟨by decide, enable_noop .speechDriving true ⟨false, true, false⟩ (by decide)⟩

/-! ### Navigation loop and watchers -/

/-- C4: after a sweep the loop sends backward and increments retry exactly when
mind < 10, mindAngle is neither 90 nor -90 and retry < 4; otherwise it sends
turn and resets retry to 0.  So (5, 30, 0) gives backward, and an angle of 90
gives turn whatever the distance. -/
theorem scanTransition_spec (mind : ℚ) (mindAngle retry : Int) :
    (scanTransition mind mindAngle retry = (CarOp.backward, retry + 1) ↔
      (mind < 10 ∧ mindAngle ≠ 90 ∧ mindAngle ≠ -90 ∧ retry < 4)) ∧
    (scanTransition mind mindAngle retry = (CarOp.turn, 0) ↔
      ¬ (mind < 10 ∧ mindAngle ≠ 90 ∧ mindAngle ≠ -90 ∧ retry < 4)) ∧
    scanTransition 5 30 0 = (CarOp.backward, 1) ∧
    scanTransition mind 90 retry = (CarOp.turn, 0) := by
  refine ⟨?_, ?_, ?_, ?_⟩
  · unfold scanTransition
    split_ifs with h
    · simp [h]
    · simp only [Prod.mk.injEq, reduceCtorEq, false_and, false_iff]
      exact h
  · unfold scanTransition
    split_ifs with h
    · simp only [Prod.mk.injEq, reduceCtorEq, false_and, false_iff, not_not]
      exact h
    · simp only [true_iff]
      exact h
  · unfold scanTransition
    norm_num
  · unfold scanTransition
    simp

/-- C5: for a reading d at a sweep position the watcher posts backward iff
d < 10, posts stop iff 10 ≤ d < 40, and posts nothing iff 40 ≤ d; so 9.9 gives
backward, 10.0 and 39.9 give stop, 40.0 gives nothing. -/
theorem obstacleReact_spec (d : ℚ) :
    (Effect.send CarOp.backward ∈ obstacleReact d ↔ d < 10) ∧
    (Effect.send CarOp.stop ∈ obstacleReact d ↔ (10 ≤ d ∧ d < 40)) ∧
    (obstacleReact d = [] ↔ 40 ≤ d) ∧
    obstacleReact (99 / 10) = [.send .backward, .quit, .quit] ∧
    obstacleReact 10 = [.send .stop, .quit, .quit] ∧
    obstacleReact (399 / 10) = [.send .stop, .quit, .quit] ∧
    obstacleReact 40 = [] := by
  refine ⟨?_, ?_, ?_, ?_, ?_, ?_, ?_⟩
  · unfold obstacleReact
    split_ifs with h1 h2 <;> simp [h1]
  · unfold obstacleReact
    split_ifs with h1 h2
    · simp; intro h; linarith
    · simp; exact ⟨not_lt.mp h1, h2⟩
    · simp; intro _; exact not_lt.mp h2
  · unfold obstacleReact
    split_ifs with h1 h2
    · simp; linarith
    · simp; exact h2
    · simp; exact not_lt.mp h2
  all_goals (unfold obstacleReact; norm_num)

/-! ### ScanSweep -/

theorem update_mind (r : ScanResult) (d : ℚ) (ang : Int) :
    (r.update d ang).mind = if d < r.mind then d else r.mind := by
  by_cases h1 : d < r.mind <;> by_cases h2 : d > r.maxd <;>
    simp [ScanResult.update, h1, h2]

theorem update_mindAngle (r : ScanResult) (d : ℚ) (ang : Int) :
    (r.update d ang).mindAngle = if d < r.mind then ang else r.mindAngle := by
  by_cases h1 : d < r.mind <;> by_cases h2 : d > r.maxd <;>
    simp [ScanResult.update, h1, h2]

theorem update_maxd (r : ScanResult) (d : ℚ) (ang : Int) :
    (r.update d ang).maxd = if d > r.maxd then d else r.maxd := by
  by_cases h1 : d < r.mind <;> by_cases h2 : d > r.maxd <;>
    simp [ScanResult.update, h1, h2]

theorem update_maxdAngle (r : ScanResult) (d : ℚ) (ang : Int) :
    (r.update d ang).maxdAngle = if d > r.maxd then ang else r.maxdAngle := by
  by_cases h1 : d < r.mind <;> by_cases h2 : d > r.maxd <;>
    simp [ScanResult.update, h1, h2]

theorem scanLoop_min (sensor : Nat → ℚ) :
    ∀ (as : List Int) (r : ScanResult) (k : Nat),
      (scanLoop sensor as r k).1.mind ≤ r.mind ∧
      (∀ p ∈ (sweepReadings sensor as k).filter (fun p => decide (0 ≤ p.2)),
        (scanLoop sensor as r k).1.mind ≤ p.2) ∧
      (((scanLoop sensor as r k).1.mind = r.mind ∧
          (scanLoop sensor as r k).1.mindAngle = r.mindAngle) ∨
        ((scanLoop sensor as r k).1.mindAngle, (scanLoop sensor as r k).1.mind) ∈
          (sweepReadings sensor as k).filter (fun p => decide (0 ≤ p.2))) := by
  intro as
  induction as with
  | nil =>
    intro r k
    simp [scanLoop, sweepReadings]
  | cons ang rest ih =>
    intro r k
    by_cases hneg : (measure sensor k).1 < 0
    · have hnot : ¬ 0 ≤ (measure sensor k).1 := not_le.mpr hneg
      simp only [scanLoop, if_pos hneg, sweepReadings]
      rw [List.filter_cons_of_neg (by simpa using hnot)]
      exact ih r (measure sensor k).2
    · have hpos : 0 ≤ (measure sensor k).1 := not_lt.mp hneg
      simp only [scanLoop, if_neg hneg, sweepReadings]
      rw [List.filter_cons_of_pos (by simpa using hpos)]
      obtain ⟨h1, h2, h3⟩ := ih (r.update (measure sensor k).1 ang) (measure sensor k).2
      have hu := update_mind r (measure sensor k).1 ang
      have hua := update_mindAngle r (measure sensor k).1 ang
      have hle : (r.update (measure sensor k).1 ang).mind ≤ r.mind := by
        rw [hu]; split_ifs with hc
        · exact le_of_lt hc
        · exact le_refl _
      have hled : (r.update (measure sensor k).1 ang).mind ≤ (measure sensor k).1 := by
        rw [hu]; split_ifs with hc
        · exact le_refl _
        · exact not_lt.mp hc
      refine ⟨le_trans h1 hle, ?_, ?_⟩
      · intro p hp
        rcases List.mem_cons.mp hp with hp | hp
        · rw [hp]; exact le_trans h1 hled
        · exact h2 p hp
      · rcases h3 with ⟨hm, ha⟩ | hmem
        · by_cases hc : (measure sensor k).1 < r.mind
          · right
            rw [hm, ha, hu, hua, if_pos hc, if_pos hc]
            exact List.mem_cons_self _ _
          · left
            rw [hm, ha, hu, hua, if_neg hc, if_neg hc]
            exact ⟨rfl, rfl⟩
        · right
          exact List.mem_cons_of_mem _ hmem

theorem scanLoop_max (sensor : Nat → ℚ) :
    ∀ (as : List Int) (r : ScanResult) (k : Nat),
      r.maxd ≤ (scanLoop sensor as r k).1.maxd ∧
      (∀ p ∈ (sweepReadings sensor as k).filter (fun p => decide (0 ≤ p.2)),
        p.2 ≤ (scanLoop sensor as r k).1.maxd) ∧
      (((scanLoop sensor as r k).1.maxd = r.maxd ∧
          (scanLoop sensor as r k).1.maxdAngle = r.maxdAngle) ∨
        ((scanLoop sensor as r k).1.maxdAngle, (scanLoop sensor as r k).1.maxd) ∈
          (sweepReadings sensor as k).filter (fun p => decide (0 ≤ p.2))) := by
  intro as
  induction as with
  | nil =>
    intro r k
    simp [scanLoop, sweepReadings]
  | cons ang rest ih =>
    intro r k
    by_cases hneg : (measure sensor k).1 < 0
    · have hnot : ¬ 0 ≤ (measure sensor k).1 := not_le.mpr hneg
      simp only [scanLoop, if_pos hneg, sweepReadings]
      rw [List.filter_cons_of_neg (by simpa using hnot)]
      exact ih r (measure sensor k).2
    · have hpos : 0 ≤ (measure sensor k).1 := not_lt.mp hneg
      simp only [scanLoop, if_neg hneg, sweepReadings]
      rw [List.filter_cons_of_pos (by simpa using hpos)]
      obtain ⟨h1, h2, h3⟩ := ih (r.update (measure sensor k).1 ang) (measure sensor k).2
      have hu := update_maxd r (measure sensor k).1 ang
      have hua := update_maxdAngle r (measure sensor k).1 ang
      have hle : r.maxd ≤ (r.update (measure sensor k).1 ang).maxd := by
        rw [hu]; split_ifs with hc
        · exact le_of_lt hc
        · exact le_refl _
      have hled : (measure sensor k).1 ≤ (r.update (measure sensor k).1 ang).maxd := by
        rw [hu]; split_ifs with hc
        · exact le_refl _
        · exact not_lt.mp hc
      refine ⟨le_trans hle h1, ?_, ?_⟩
      · intro p hp
        rcases List.mem_cons.mp hp with hp | hp
        · rw [hp]; exact le_trans hled h1
        · exact h2 p hp
      · rcases h3 with ⟨hm, ha⟩ | hmem
        · by_cases hc : (measure sensor k).1 > r.maxd
          · right
            rw [hm, ha, hu, hua, if_pos hc, if_pos hc]
            exact List.mem_cons_self _ _
          · left
            rw [hm, ha, hu, hua, if_neg hc, if_neg hc]
            exact ⟨rfl, rfl⟩
        · right
          exact List.mem_cons_of_mem _ hmem

/-- Where the sweep is right: when at least one angle ends with a valid reading
below 9999, the value `mind` starts from, `scan` returns the minimum and the
maximum of the valid readings, each with an angle at which it was read; for
the readings 80, 70, 60, 50, 45, 5, 42, 38, 90, 95 it returns mind 5 at 30 and
maxd 95 at 90. -/
theorem scan_correct (sensor : Nat → ℚ)
    (h : ∃ p ∈ validReadings sensor, p.2 < 9999) :
    ScanCorrect sensor ∧
    scan (sensorOf [80, 70, 60, 50, 45, 5, 42, 38, 90, 95]) = ⟨5, 95, 30, 90⟩ := by
  constructor
  · obtain ⟨p, hp, hlt⟩ := h
    obtain ⟨_, hmin, hminAt⟩ := scanLoop_min sensor scanningAngles ScanResult.init 0
    obtain ⟨_, hmax, hmaxAt⟩ := scanLoop_max sensor scanningAngles ScanResult.init 0
    have hp0 : 0 ≤ p.2 := by
      have := (List.mem_filter.mp hp).2
      simpa using this
    refine ⟨?_, hmin, ?_, hmax⟩
    · rcases hminAt with ⟨hm, _⟩ | hmem
      · exfalso
        have h1 := hmin p hp
        rw [hm] at h1
        have h2 : ScanResult.init.mind = 9999 := rfl
        rw [h2] at h1
        linarith
      · exact hmem
    · rcases hmaxAt with ⟨hm, _⟩ | hmem
      · exfalso
        have h1 := hmax p hp
        rw [hm] at h1
        have h2 : ScanResult.init.maxd = -9999 := rfl
        rw [h2] at h1
        linarith
      · exact hmem
  · norm_num [scan, scanLoop, measure, retryDist, sensorOf, scanningAngles,
      ScanResult.update, ScanResult.init]

/-- The sweep of the specification example satisfies `scan_correct`. -/
theorem scan_correct_witness :
    (∃ p ∈ validReadings (sensorOf [80, 70, 60, 50, 45, 5, 42, 38, 90, 95]), p.2 < 9999) ∧
    ScanCorrect (sensorOf [80, 70, 60, 50, 45, 5, 42, 38, 90, 95]) ∧
    scan (sensorOf [80, 70, 60, 50, 45, 5, 42, 38, 90, 95]) = ⟨5, 95, 30, 90⟩ :=
  ⟨⟨(-90, 80), by
      norm_num [validReadings, sweepReadings, measure, retryDist, sensorOf, scanningAngles],
      by norm_num⟩,
    scan_correct (sensorOf [80, 70, 60, 50, 45, 5, 42, 38, 90, 95])
      ⟨(-90, 80), by
        norm_num [validReadings, sweepReadings, measure, retryDist, sensorOf, scanningAngles],
        by norm_num⟩⟩

/-- C3 (the code breaks it): a sensor that reads 10000 at every angle.  Every
angle has a valid reading, yet `scan` returns mind = 9999 with mindAngle = 0,
which is no reading of the sweep, against the comment above `scan` that mind
is the min distance and mindAngle its angle; the maximum is returned right. -/
theorem scan_sentinel_counterexample :
    (∀ p ∈ sweepReadings (fun _ => 10000) scanningAngles 0, p.2 = 10000) ∧
    (∃ p, p ∈ validReadings (fun _ => 10000)) ∧
    (scan (fun _ => 10000)).mind = 9999 ∧ (scan (fun _ => 10000)).mindAngle = 0 ∧
    ¬ ScanCorrect (fun _ => 10000) := by
  have hs : scan (fun _ => 10000) = ⟨9999, 10000, 0, -90⟩ := by
    norm_num [scan, scanLoop, measure, retryDist, scanningAngles,
      ScanResult.update, ScanResult.init]
  refine ⟨?_, ⟨(-90, 10000), ?_⟩, ?_, ?_, ?_⟩
  · norm_num [sweepReadings, measure, retryDist, scanningAngles]
  · norm_num [validReadings, sweepReadings, measure, retryDist, scanningAngles]
  · rw [hs]
  · rw [hs]
  · intro hc
    have h1 := hc.1
    rw [hs] at h1
    norm_num [validReadings, sweepReadings, measure, retryDist, scanningAngles] at h1

/-! ### TurnCalibrator -/

/-- C6: for every angle outside the turn table, `turn` returns with an empty
trace: no Left, Right or Stop on the motor and no encoder start. -/
theorem turn_unsupported (pulses : Nat → Nat) (fuel : Nat) (angle : Int)
    (h : angle ∉ [(-90 : Int), -75, -60, -45, -30, 30, 45, 60, 75, 90]) :
    turn pulses fuel angle = some [] := by
  simp only [List.mem_cons, List.mem_singleton, List.not_mem_nil, or_false, not_or] at h
  obtain ⟨h1, h2, h3, h4, h5, h6, h7, h8, h9, h10⟩ := h
  have hl : turnAngleCounts.lookup angle = none := by
    have e : ∀ x : Int, ¬ angle = x → (angle == x) = false := fun x hx => by simpa using hx
    simp [turnAngleCounts, List.lookup, e _ h1, e _ h2, e _ h3, e _ h4, e _ h5, e _ h6,
      e _ h7, e _ h8, e _ h9, e _ h10]
  simp [turn, hl]

/-- C6 witness: a turn of 15 degrees. -/
theorem turn_unsupported_witness :
    (15 : Int) ∉ [(-90 : Int), -75, -60, -45, -30, 30, 45, 60, 75, 90] ∧
    turn (fun _ => 1) 0 15 = some [] :=
  ⟨by decide, turn_unsupported (fun _ => 1) 0 15 (by decide)⟩

theorem wrapInt_eq (x : Int) (h0 : 0 ≤ x) (h1 : x < 2 ^ 63) : wrapInt x = x := by
  unfold wrapInt
  have h : (x + 2 ^ 63) % 2 ^ 64 = x + 2 ^ 63 :=
    Int.emod_eq_of_lt (by omega) (by omega)
  rw [h]
  ring

theorem countLoop_reaches (pulses : Nat → Nat) (n kmin : Nat)
    (hb : ∀ j, (pulses j : Int) ≤ 2 ^ 63 - (n : Int))
    (hk : n ≤ pulseSum pulses kmin) (hmin : ∀ j, j < kmin → pulseSum pulses j < n) :
    ∀ fuel k, k ≤ kmin → kmin ≤ k + fuel →
      countLoop pulses n fuel (pulseSum pulses k : Int) k = some kmin := by
  have hkI : ¬ ((pulseSum pulses kmin : Int) < (n : Int)) := by
    have : (n : Int) ≤ (pulseSum pulses kmin : Int) := by exact_mod_cast hk
    omega
  intro fuel
  induction fuel with
  | zero =>
    intro k hle hge
    have hEq : k = kmin := by omega
    subst hEq
    simp only [countLoop, if_neg hkI]
  | succ f ih =>
    intro k hle hge
    rcases Nat.lt_or_ge k kmin with hlt | hge2
    · have hlt2 : (pulseSum pulses k : Int) < (n : Int) := by
        exact_mod_cast hmin k hlt
      have hstep := ih (k + 1) hlt (by omega)
      have hw : wrapInt ((pulseSum pulses k : Int) + (pulses k : Int)) =
          ((pulseSum pulses (k + 1) : Nat) : Int) := by
        have hbk := hb k
        rw [wrapInt_eq _ (by positivity) (by omega)]
        simp [pulseSum]
      simp only [countLoop, if_pos hlt2, hw, hstep]
    · have hEq : k = kmin := by omega
      subst hEq
      simp only [countLoop, if_neg hkI]

/-- C7 (as the code has it): for an angle of the turn table with count n and
encoder readings that are each at most 2^63 - n (so that the Go `int` counter
cannot wrap around) and whose running sum reaches n, there is a k, the first
number of readings whose sum is at least n, such that with any fuel of at
least k `turn` returns the trace: Left for a negative angle and Right for a
positive one, one encoder start, exactly k pulse reads, then the motor stop
and the encoder stop. -/
theorem turn_supported (a : Int) (n : Nat) (pulses : Nat → Nat)
    (ha : turnAngleCounts.lookup a = some n)
    (hb : ∀ j, (pulses j : Int) ≤ 2 ^ 63 - (n : Int))
    (hp : ∃ m, n ≤ pulseSum pulses m) :
    ∃ k dir,
      n ≤ pulseSum pulses k ∧ (∀ j, j < k → pulseSum pulses j < n) ∧
      (a < 0 → dir = Effect.engineLeft) ∧ (0 < a → dir = Effect.engineRight) ∧
      ∀ fuel, k ≤ fuel →
        turn pulses fuel a =
          some (dir :: Effect.encoderStart ::
            (List.replicate k Effect.encoderCount1 ++
              [Effect.engineStop, Effect.encoderStop])) := by
  classical
  refine ⟨Nat.find hp, if a < 0 then Effect.engineLeft else Effect.engineRight,
    Nat.find_spec hp, ?_, ?_, ?_, ?_⟩
  · intro j hj
    exact not_le.mp (Nat.find_min hp hj)
  · intro h
    simp [h]
  · intro h
    have : ¬ a < 0 := by omega
    simp [this]
  · intro fuel hf
    have hloop := countLoop_reaches pulses n (Nat.find hp) hb (Nat.find_spec hp)
      (fun j hj => not_le.mp (Nat.find_min hp hj)) fuel 0 (Nat.zero_le _) (by omega)
    simp only [pulseSum, Nat.cast_zero] at hloop
    simp [turn, ha, hloop]

/-- C7 witness: a turn of 30 degrees (5 pulses) with one pulse per read. -/
theorem turn_supported_witness :
    turnAngleCounts.lookup 30 = some 5 ∧
    (∀ j : Nat, (((fun _ => 1) : Nat → Nat) j : Int) ≤ 2 ^ 63 - ((5 : Nat) : Int)) ∧
    (∃ m, 5 ≤ pulseSum (fun _ => 1) m) ∧
    ∃ k dir,
      5 ≤ pulseSum (fun _ => 1) k ∧ (∀ j, j < k → pulseSum (fun _ => 1) j < 5) ∧
      ((30 : Int) < 0 → dir = Effect.engineLeft) ∧
      ((0 : Int) < 30 → dir = Effect.engineRight) ∧
      ∀ fuel, k ≤ fuel →
        turn (fun _ => 1) fuel 30 =
          some (dir :: Effect.encoderStart ::
            (List.replicate k Effect.encoderCount1 ++
              [Effect.engineStop, Effect.encoderStop])) :=
  ⟨by decide, fun _ => by norm_num, ⟨5, by decide⟩,
    turn_supported 30 5 (fun _ => 1) (by decide) (fun _ => by norm_num) ⟨5, by decide⟩⟩

/-- C7 counterexample: a turn of 90 degrees (17 pulses) with the non-negative
readings 10, 2^63 - 1, 2^63 - 1, 1, 1, ...  The running sum reaches 17 with the
second reading, yet the counter wraps around and `turn` makes 12 pulse reads
before it stops the motor. -/
theorem turn_wrap_counterexample :
    turnAngleCounts.lookup 90 = some 17 ∧
    pulseSum wrappingPulses 1 < 17 ∧ 17 ≤ pulseSum wrappingPulses 2 ∧
    turn wrappingPulses 12 90 =
      some (Effect.engineRight :: Effect.encoderStart ::
        (List.replicate 12 Effect.encoderCount1 ++
          [Effect.engineStop, Effect.encoderStop])) := by
  refine ⟨by decide, by decide, by decide, ?_⟩
  have hl : turnAngleCounts.lookup (90 : Int) = some 17 := by decide
  have hc : countLoop wrappingPulses 17 12 0 0 = some 12 := by
    norm_num [countLoop, wrappingPulses, wrapInt]
  simp [turn, hl, hc]

/-! ### Speech keywords -/

theorem indexFrom_nonneg_iff (sub : List Char) :
    ∀ (s : List Char) (i : Nat), 0 ≤ indexFrom sub s i ↔ sub <:+: s := by
  intro s
  induction s with
  | nil =>
    intro i
    cases sub with
    | nil => simp [indexFrom]
    | cons c t => simp [indexFrom, List.isPrefixOf]
  | cons c t ih =>
    intro i
    unfold indexFrom
    by_cases hp : sub.isPrefixOf (c :: t) = true
    · rw [if_pos hp]
      have hpre : sub <+: c :: t := List.isPrefixOf_iff_prefix.mp hp
      constructor
      · intro _; exact hpre.isInfix
      · intro _; exact Int.ofNat_nonneg i
    · rw [if_neg hp, ih (i + 1), List.infix_cons_iff]
      constructor
      · intro h; exact Or.inr h
      · rintro (h | h)
        · exact absurd (List.isPrefixOf_iff_prefix.mpr h) hp
        · exact h

theorem stringsIndex_nonneg_iff (s sub : String) :
    stringsIndex s sub ≥ 0 ↔ sub.data <:+: s.data :=
  indexFrom_nonneg_iff sub.data s.data 0

/-- C10: for every recognised text the switch of `detectSpeech` issues the
command of the first keyword, in the order forward, back, left, right, stop,
what-is-this, sing, that occurs as a substring of the text, and nothing when
none occurs; a text with both the left and the forward keyword yields
forward. -/
theorem speechSwitch_first_keyword (text : String) :
    speechSwitch text = (firstKeyword text).toList ∧
    (firstKeyword text = none ↔ ∀ kw ∈ keywordTable, ¬ kw.1.data <:+: text.data) ∧
    speechSwitch "向左再向前" = [Effect.send CarOp.forward] := by
  refine ⟨?_, ?_, by decide⟩
  · unfold speechSwitch firstKeyword keywordTable
    simp only [stringsIndex_nonneg_iff, List.find?_cons, List.find?_nil]
    by_cases h1 : "前".data <:+: text.data
    · simp [h1]
    by_cases h2 : "后".data <:+: text.data
    · simp [h1, h2]
    by_cases h3 : "左".data <:+: text.data
    · simp [h1, h2, h3]
    by_cases h4 : "右".data <:+: text.data
    · simp [h1, h2, h3, h4]
    by_cases h5 : "停".data <:+: text.data
    · simp [h1, h2, h3, h4, h5]
    by_cases h6 : "是什么".data <:+: text.data
    · simp [h1, h2, h3, h4, h5, h6]
    by_cases h7 : "唱歌".data <:+: text.data
    · simp [h1, h2, h3, h4, h5, h6, h7]
    · simp [h1, h2, h3, h4, h5, h6, h7]
  · unfold firstKeyword
    simp [List.find?_eq_none]

/-! ### Speech-driving loop and watcher signalling -/

theorem speechDrivingBody_marker (fwd : Bool) (op : CarOp) (h : op ∈ speechOps) :
    (speechDrivingBody fwd op).1 = decide (op = CarOp.forward) ∧
    (speechDrivingBody fwd op).2.count Effect.spawnDetecting =
      (if op = CarOp.forward ∧ fwd = false then 1 else 0) := by
  simp only [speechOps, List.mem_cons, List.mem_singleton, List.not_mem_nil, or_false] at h
  rcases h with h | h | h | h | h <;> subst h <;> cases fwd <;> decide

theorem speechDrivingRun_spec :
    ∀ (ops : List CarOp) (fwd : Bool), (∀ o ∈ ops, o ∈ speechOps) →
      (speechDrivingRun fwd ops).1 = movingAfter fwd ops ∧
      (speechDrivingRun fwd ops).2.count Effect.spawnDetecting = forwardEntries fwd ops := by
  intro ops
  induction ops with
  | nil => intro fwd _; exact ⟨rfl, rfl⟩
  | cons op rest ih =>
    intro fwd h
    obtain ⟨hm, hc⟩ := speechDrivingBody_marker fwd op (h op (List.mem_cons_self _ _))
    obtain ⟨h1, h2⟩ := ih (speechDrivingBody fwd op).1
      (fun o ho => h o (List.mem_cons_of_mem _ ho))
    rw [hm] at h1 h2
    refine ⟨?_, ?_⟩
    · simp only [speechDrivingRun, movingAfter, hm, h1]
    · simp only [speechDrivingRun, forwardEntries, List.count_append, hm, h2, hc]

theorem speechDrivingRun_append (op : CarOp) :
    ∀ (pre : List CarOp) (fwd : Bool),
      speechDrivingRun fwd (pre ++ [op]) =
        ((speechDrivingBody (speechDrivingRun fwd pre).1 op).1,
          (speechDrivingRun fwd pre).2 ++ (speechDrivingBody (speechDrivingRun fwd pre).1 op).2) := by
  intro pre
  induction pre with
  | nil => intro fwd; simp [speechDrivingRun]
  | cons o rest ih =>
    intro fwd
    simp only [List.cons_append, speechDrivingRun, List.append_eq, ih, List.append_assoc]

/-- C11 (as the code has it): for every sequence of ops processed by the
speech-driving loop, the step of an op spawns `detecting` exactly when the op
is forward and the car is not already moving forward, that is when the op
before it was not forward (for the first op: when the loop was not moving
forward at the start); the marker after the sequence says whether its last op
was forward; the spawns of the whole run are as many as those forward entries;
and with self-tracking off `detecting` starts the collision and the obstacle
watcher. -/
theorem speech_spawns_on_forward (fwd : Bool) (pre : List CarOp) (op : CarOp)
    (hpre : ∀ o ∈ pre, o ∈ speechOps) :
    (speechDrivingRun fwd (pre ++ [op])).2 =
      (speechDrivingRun fwd pre).2 ++ (speechDrivingBody (movingAfter fwd pre) op).2 ∧
    (Effect.spawnDetecting ∈ (speechDrivingBody (movingAfter fwd pre) op).2 ↔
      (op = CarOp.forward ∧ movingAfter fwd pre = false)) ∧
    (speechDrivingRun fwd pre).1 = movingAfter fwd pre ∧
    (speechDrivingRun fwd pre).2.count Effect.spawnDetecting = forwardEntries fwd pre ∧
    (∀ m : Bool, Effect.spawnDetecting ∈ (speechDrivingBody m op).2 ↔
      (op = CarOp.forward ∧ m = false)) ∧
    detecting false = [Watcher.collision, Watcher.obstacles] := by
  have hstep : ∀ m : Bool, Effect.spawnDetecting ∈ (speechDrivingBody m op).2 ↔
      (op = CarOp.forward ∧ m = false) := by
    intro m
    cases op <;> cases m <;> simp [speechDrivingBody]
  obtain ⟨h1, h2⟩ := speechDrivingRun_spec pre fwd hpre
  refine ⟨?_, hstep _, h1, h2, hstep, rfl⟩
  rw [speechDrivingRun_append, h1]

/-- C11 witness: forward, stop, then forward again, from a standing car. -/
theorem speech_spawns_on_forward_witness :
    (∀ o ∈ [CarOp.forward, CarOp.stop], o ∈ speechOps) ∧
    (speechDrivingRun false ([CarOp.forward, CarOp.stop] ++ [CarOp.forward])).2 =
      (speechDrivingRun false [CarOp.forward, CarOp.stop]).2 ++
        (speechDrivingBody (movingAfter false [CarOp.forward, CarOp.stop]) CarOp.forward).2 ∧
    (Effect.spawnDetecting ∈
        (speechDrivingBody (movingAfter false [CarOp.forward, CarOp.stop]) CarOp.forward).2 ↔
      (CarOp.forward = CarOp.forward ∧
        movingAfter false [CarOp.forward, CarOp.stop] = false)) ∧
    (speechDrivingRun false [CarOp.forward, CarOp.stop]).1 =
      movingAfter false [CarOp.forward, CarOp.stop] ∧
    (speechDrivingRun false [CarOp.forward, CarOp.stop]).2.count Effect.spawnDetecting =
      forwardEntries false [CarOp.forward, CarOp.stop] ∧
    (∀ m : Bool, Effect.spawnDetecting ∈ (speechDrivingBody m CarOp.forward).2 ↔
      (CarOp.forward = CarOp.forward ∧ m = false)) ∧
    detecting false = [Watcher.collision, Watcher.obstacles] :=
  ⟨by decide,
    speech_spawns_on_forward false [CarOp.forward, CarOp.stop] CarOp.forward (by decide)⟩

/-- C11 counterexample: a forward op processed while not moving forward makes
the speech-driving loop spawn the watchers. -/
theorem speech_spawn_counterexample :
    Effect.spawnDetecting ∈ (speechDrivingBody false CarOp.forward).2 := by
  decide

theorem collisionReact_quit (switches : List Bool) (hs : true ∈ switches) :
    quitCount (collisionReact switches) = 2 := by
  induction switches with
  | nil => simp at hs
  | cons b rest ih =>
    cases b with
    | true => rfl
    | false =>
      have hr : true ∈ rest := by simpa using hs
      simpa [collisionReact] using ih hr

/-- C12 (as the code has it): a watcher that finishes by posting an override
(the obstacle watcher on a reading below 40, the collision watcher on a tripped
switch, the tracking watcher on acquiring the target) puts exactly two signals
on the quit channel, whatever the mode; the number of other watchers is two
with self-tracking on and one with it off. -/
theorem quit_signals_two (d : ℚ) (switches : List Bool)
    (hd : d < 40) (hs : true ∈ switches) :
    quitCount (obstacleReact d) = 2 ∧
    quitCount (collisionReact switches) = 2 ∧
    quitCount trackingFound = 2 ∧
    siblings true = 2 ∧ siblings false = 1 := by
  refine ⟨?_, collisionReact_quit switches hs, by decide, by decide, by decide⟩
  unfold obstacleReact
  split_ifs with h1
  · decide
  · decide

/-- C12 witness: a reading of 5 cm, and the second switch tripped. -/
theorem quit_signals_two_witness :
    quitCount (obstacleReact 5) = 2 ∧
    quitCount (collisionReact [false, true]) = 2 ∧
    quitCount trackingFound = 2 ∧
    siblings true = 2 ∧ siblings false = 1 :=
  quit_signals_two 5 [false, true] (by norm_num) (by decide)

/-- C12 counterexample: with self-tracking off the obstacle watcher that posts
backward for a reading of 5 cm sends two quit signals although only one other
watcher runs. -/
theorem quit_signals_counterexample :
    quitCount (obstacleReact 5) = 2 ∧ siblings false = 1 ∧
    quitCount (obstacleReact 5) ≠ siblings false := by
  have h : quitCount (obstacleReact 5) = 2 := by
    have h5 : ((5 : ℚ) < 10) := by norm_num
    simp only [obstacleReact, if_pos h5]
    decide
  refine ⟨h, by decide, ?_⟩
  rw [h]
  decide

/-! ### Dispatcher -/

/-- C13 (as the code has it): of the tokens of the Command vocabulary, pause,
turn, scan and blink fall to the default branch of the dispatcher (invalid
op); each of the five motion tokens makes the dispatcher call its
corresponding handler directly; every other token makes it run its
corresponding handler as a goroutine.  The last conjunct is the whole table,
token by token in the order of the vocabulary. -/
theorem dispatch_vocabulary (op : CarOp) (h : op ∈ vocabulary) :
    (op ∈ unhandledOps → dispatchOp op = Dispatched.invalidOp) ∧
    (op ∈ motionOps →
      ∃ hd, correspondingHandler op = some hd ∧ dispatchOp op = Dispatched.call hd) ∧
    (op ∉ unhandledOps → op ∉ motionOps →
      ∃ hd, correspondingHandler op = some hd ∧ dispatchOp op = Dispatched.spawn hd) ∧
    vocabulary.map dispatchOp =
      [Dispatched.call Handler.forward, Dispatched.call Handler.backward,
       Dispatched.call Handler.left, Dispatched.call Handler.right,
       Dispatched.call Handler.stop,
       Dispatched.invalidOp, Dispatched.invalidOp, Dispatched.invalidOp,
       Dispatched.spawn Handler.beep, Dispatched.invalidOp,
       Dispatched.spawn Handler.servoLeft, Dispatched.spawn Handler.servoRight,
       Dispatched.spawn Handler.servoAhead,
       Dispatched.spawn Handler.lightOn, Dispatched.spawn Handler.lightOff,
       Dispatched.spawn Handler.selfDrivingOn, Dispatched.spawn Handler.selfDrivingOff,
       Dispatched.spawn Handler.selfTrackingOn, Dispatched.spawn Handler.selfTrackingOff,
       Dispatched.spawn Handler.speechDrivingOn,
       Dispatched.spawn Handler.speechDrivingOff] := by
  simp only [vocabulary, List.mem_cons, List.mem_singleton, List.not_mem_nil, or_false] at h
  refine ⟨?_, ?_, ?_, by decide⟩ <;>
    rcases h with h | h | h | h | h | h | h | h | h | h | h | h | h | h | h | h | h | h | h | h | h <;>
    subst h <;>
    first
    | (intro _; rfl)
    | (intro _; exact ⟨_, rfl, rfl⟩)
    | (intro _ _; exact ⟨_, rfl, rfl⟩)
    | (intro hn; exact absurd hn (by decide))
    | (intro _ hn; exact absurd hn (by decide))

/-- C13 witness: the token beep runs the handler `beep` as a goroutine. -/
theorem dispatch_vocabulary_witness :
    CarOp.beep ∈ vocabulary ∧
    (CarOp.beep ∈ unhandledOps → dispatchOp CarOp.beep = Dispatched.invalidOp) ∧
    (CarOp.beep ∈ motionOps →
      ∃ hd, correspondingHandler CarOp.beep = some hd ∧
        dispatchOp CarOp.beep = Dispatched.call hd) ∧
    (CarOp.beep ∉ unhandledOps → CarOp.beep ∉ motionOps →
      ∃ hd, correspondingHandler CarOp.beep = some hd ∧
        dispatchOp CarOp.beep = Dispatched.spawn hd) ∧
    vocabulary.map dispatchOp =
      [Dispatched.call Handler.forward, Dispatched.call Handler.backward,
       Dispatched.call Handler.left, Dispatched.call Handler.right,
       Dispatched.call Handler.stop,
       Dispatched.invalidOp, Dispatched.invalidOp, Dispatched.invalidOp,
       Dispatched.spawn Handler.beep, Dispatched.invalidOp,
       Dispatched.spawn Handler.servoLeft, Dispatched.spawn Handler.servoRight,
       Dispatched.spawn Handler.servoAhead,
       Dispatched.spawn Handler.lightOn, Dispatched.spawn Handler.lightOff,
       Dispatched.spawn Handler.selfDrivingOn, Dispatched.spawn Handler.selfDrivingOff,
       Dispatched.spawn Handler.selfTrackingOn, Dispatched.spawn Handler.selfTrackingOff,
       Dispatched.spawn Handler.speechDrivingOn,
       Dispatched.spawn Handler.speechDrivingOff] :=
  ⟨by decide, dispatch_vocabulary CarOp.beep (by decide)⟩

/-- C13 counterexample: scan is a token of the vocabulary and the dispatcher
treats it as unrecognized. -/
theorem dispatch_scan_counterexample :
    CarOp.scan ∈ vocabulary ∧ dispatchOp CarOp.scan = Dispatched.invalidOp := by
  decide

/-! ### Optional peripherals and the servo -/

/-- The handlers that check for the peripheral never call a missing one. -/
theorem guarded_handlers_safe (car : Car) (a : Int) :
    callsMissing car (beep car) = false ∧
    callsMissing car (lightOn car) = false ∧
    callsMissing car (lightOff car) = false ∧
    callsMissing car (servoLeft car a).2 = false ∧
    callsMissing car (servoRight car a).2 = false ∧
    callsMissing car (servoAhead car a).2 = false := by
  rcases car with ⟨h, l, sv, t, u⟩
  cases h <;> cases l <;> cases sv <;>
    simp [callsMissing, beep, lightOn, lightOff, servoLeft, servoRight, servoAhead,
      Effect.target, Car.has]

/-- C14 (the code breaks it): on a car built with the distance sensor but
without horn, light, servo and tracker, entering the self-driving loop and the
collision watcher call the horn, ScanSweep and Start call the servo, and
DisableSelfTracking calls the tracker, none behind a presence check. -/
theorem unguarded_peripheral_calls :
    callsMissing ⟨false, false, false, false, true⟩
      (selfDrivingEntry ⟨false, false, false, false, true⟩) = true ∧
    callsMissing ⟨false, false, false, false, true⟩ (collisionReact [true]) = true ∧
    callsMissing ⟨false, false, false, false, true⟩ (scanTrace (fun _ => 50)) = true ∧
    callsMissing ⟨false, false, false, false, true⟩
      (startCar ⟨false, false, false, false, true⟩) = true ∧
    callsMissing ⟨false, false, false, false, true⟩
      (selfTrackingOff ⟨false, false, false, false, true⟩ true) = true := by
  refine ⟨by decide, by decide, ?_, by decide, by decide⟩
  simp [callsMissing, scanTrace, scanLoopTrace, scanningAngles, Effect.target, Car.has]

theorem servoStep_range (car : Car) (a : Int) (op : CarOp)
    (h : -90 ≤ a ∧ a ≤ 90) :
    -90 ≤ servoStep car a op ∧ servoStep car a op ≤ 90 := by
  obtain ⟨h1, h2⟩ := h
  cases op <;> simp only [servoStep, servoLeft, servoRight, servoAhead] <;>
    first
    | exact ⟨h1, h2⟩
    | (split_ifs <;> omega)
    | omega

theorem servoRun_range (car : Car) (ops : List CarOp) :
    ∀ a : Int, (-90 ≤ a ∧ a ≤ 90) →
      -90 ≤ servoRun car a ops ∧ servoRun car a ops ≤ 90 := by
  induction ops with
  | nil => intro a h; exact h
  | cons op rest ih =>
    intro a h
    exact ih (servoStep car a op) (servoStep_range car a op h)

/-- C17: starting from servo angle 0, after any finite sequence of commands
the stored servo angle lies in [-90, 90]; servoleft stores the angle minus 15
but not below -90, servoright the angle plus 15 but not above 90, servoahead
stores 0. -/
theorem servo_angle_range (car : Car) (ops : List CarOp) (a : Int) :
    (-90 ≤ servoRun car 0 ops ∧ servoRun car 0 ops ≤ 90) ∧
    (servoLeft car a).1 = max (a - 15) (-90) ∧
    (servoRight car a).1 = min (a + 15) 90 ∧
    (servoAhead car a).1 = 0 := by
  refine ⟨servoRun_range car ops 0 (by omega), ?_, ?_, rfl⟩
  · simp only [servoLeft]
    split_ifs <;> omega
  · simp only [servoRight]
    split_ifs <;> omega

/-! ### ScanSweep: retries and the result without a valid reading -/

theorem retryDist_spec (sensor : Nat → ℚ) :
    ∀ (n : Nat) (d : ℚ) (k : Nat),
      k ≤ (retryDist sensor n d k).2 ∧ (retryDist sensor n d k).2 ≤ k + n ∧
      (((retryDist sensor n d k).2 = k ∧ (retryDist sensor n d k).1 = d) ∨
        (k < (retryDist sensor n d k).2 ∧ d < 0 ∧
          (retryDist sensor n d k).1 = sensor ((retryDist sensor n d k).2 - 1))) ∧
      (∀ j, k ≤ j → j + 1 < (retryDist sensor n d k).2 → sensor j < 0) ∧
      ((retryDist sensor n d k).1 < 0 → (retryDist sensor n d k).2 = k + n) ∧
      (retryTrace sensor n d k).count Effect.ultDist = (retryDist sensor n d k).2 - k := by
  intro n
  induction n with
  | zero =>
    intro d k
    simp [retryDist, retryTrace]
    intro j h1 h2
    omega
  | succ n ih =>
    intro d k
    by_cases hd : d < 0
    · obtain ⟨h1, h2, h3, h4, h5, h6⟩ := ih (sensor k) (k + 1)
      simp only [retryDist, retryTrace, if_pos hd]
      refine ⟨by omega, by omega, Or.inr ⟨by omega, hd, ?_⟩, ?_, ?_, ?_⟩
      · rcases h3 with ⟨e1, e2⟩ | ⟨_, _, e2⟩
        · rw [e2, e1]; simp
        · exact e2
      · intro j hj1 hj2
        rcases Nat.eq_or_lt_of_le hj1 with hj | hj
        · subst hj
          rcases h3 with ⟨e1, _⟩ | ⟨_, e2, _⟩
          · omega
          · exact e2
        · exact h4 j hj hj2
      · intro hneg
        have := h5 hneg
        omega
      · simp only [List.count_cons, h6]
        simp
        omega
    · simp only [retryDist, retryTrace, if_neg hd]
      refine ⟨le_refl _, by omega, Or.inl (by simp), ?_, ?_, by simp⟩
      · intro j h1 h2
        omega
      · intro hneg
        exact absurd hneg hd

/-- C15: at every angle, reached with k reads made so far, the sweep reads
the distance at least once and at most 4 times; the reading kept is the last
one read; every reading before the last is negative (a retry follows a
negative reading only); the trace of the angle holds that many sensor reads;
and when the reading is still negative after the fourth read, the angle leaves
the minimum and the maximum as they were. -/
theorem scan_retries_bounded (sensor : Nat → ℚ) (k : Nat) :
    k + 1 ≤ (measure sensor k).2 ∧ (measure sensor k).2 ≤ k + 4 ∧
    (measure sensor k).1 = sensor ((measure sensor k).2 - 1) ∧
    (∀ j, k ≤ j → j + 1 < (measure sensor k).2 → sensor j < 0) ∧
    ((measure sensor k).1 < 0 → (measure sensor k).2 = k + 4) ∧
    (Effect.ultDist :: retryTrace sensor 3 (sensor k) (k + 1)).count Effect.ultDist =
      (measure sensor k).2 - k ∧
    (∀ ang rest r, (measure sensor k).1 < 0 →
      scanLoop sensor (ang :: rest) r k = scanLoop sensor rest r (measure sensor k).2) := by
  obtain ⟨h1, h2, h3, h4, h5, h6⟩ := retryDist_spec sensor 3 (sensor k) (k + 1)
  unfold measure
  refine ⟨by omega, by omega, ?_, ?_, ?_, ?_, ?_⟩
  · rcases h3 with ⟨e1, e2⟩ | ⟨_, _, e2⟩
    · rw [e2, e1]; simp
    · exact e2
  · intro j hj1 hj2
    rcases Nat.eq_or_lt_of_le hj1 with hj | hj
    · subst hj
      rcases h3 with ⟨e1, _⟩ | ⟨_, e2, _⟩
      · omega
      · exact e2
    · exact h4 j hj hj2
  · intro hneg
    have := h5 hneg
    omega
  · simp only [List.count_cons, h6]
    simp
    omega
  · intro ang rest r hneg
    have hm : (measure sensor k).1 < 0 := hneg
    simp only [scanLoop, if_pos hm]
    rfl

theorem scanLoop_no_valid (sensor : Nat → ℚ) :
    ∀ (as : List Int) (r : ScanResult) (k : Nat),
      (∀ p ∈ sweepReadings sensor as k, p.2 < 0) →
      (scanLoop sensor as r k).1 = r := by
  intro as
  induction as with
  | nil => intro r k _; rfl
  | cons ang rest ih =>
    intro r k h
    have hneg : (measure sensor k).1 < 0 :=
      h (ang, (measure sensor k).1) (by simp [sweepReadings])
    simp only [scanLoop, if_pos hneg]
    apply ih
    intro p hp
    exact h p (by simp only [sweepReadings]; exact List.mem_cons_of_mem _ hp)

/-- C16 (as the code has it): when every angle of the sweep ends with a
negative reading, `scan` returns the values it started from: mind = 9999,
maxd = -9999 and both angles 0; maxd is negative, mind is not. -/
theorem scan_no_valid (sensor : Nat → ℚ)
    (h : ∀ p ∈ sweepReadings sensor scanningAngles 0, p.2 < 0) :
    (scan sensor).mind = 9999 ∧ (scan sensor).maxd = -9999 ∧
    (scan sensor).mindAngle = 0 ∧ (scan sensor).maxdAngle = 0 := by
  have hs : scan sensor = ScanResult.init :=
    scanLoop_no_valid sensor scanningAngles ScanResult.init 0 h
  rw [hs]
  exact ⟨rfl, rfl, rfl, rfl⟩

/-- C16 witness: a sensor whose every reading is -1. -/
theorem scan_no_valid_witness :
    (∀ p ∈ sweepReadings (fun _ => -1) scanningAngles 0, p.2 < 0) ∧
    (scan (fun _ => -1)).mind = 9999 ∧ (scan (fun _ => -1)).maxd = -9999 ∧
    (scan (fun _ => -1)).mindAngle = 0 ∧ (scan (fun _ => -1)).maxdAngle = 0 :=
  ⟨by norm_num [sweepReadings, measure, retryDist, scanningAngles],
    scan_no_valid (fun _ => -1)
      (by norm_num [sweepReadings, measure, retryDist, scanningAngles])⟩

/-- C16 counterexample: with every reading -1 no angle yields a valid reading
and the mind returned is 9999, which is not negative. -/
theorem scan_invalid_counterexample :
    validReadings (fun _ => -1) = [] ∧
    (scan (fun _ => -1)).mind = 9999 ∧
    ¬ ((scan (fun _ => -1)).mind < 0 ∧ (scan (fun _ => -1)).maxd < 0) := by
  have hs : scan (fun _ => -1) = ⟨9999, -9999, 0, 0⟩ := by
    norm_num [scan, scanLoop, measure, retryDist, scanningAngles, ScanResult.init]
  refine ⟨?_, ?_, ?_⟩
  · norm_num [validReadings, sweepReadings, measure, retryDist, scanningAngles]
  · rw [hs]
  · rw [hs]
    norm_num

/-! ### Tracking watcher -/

theorem trackInner_lost_run (rest : List (Option Sight)) :
    ∀ (m : Nat) (a : Int) (ft : Bool), a + 30 * (m : Int) ≤ 360 →
      trackInner a ft (List.replicate m none ++ rest) =
        (searchTurns m ++
            (trackInner (a + 30 * (m : Int)) (if m = 0 then ft else true) rest).1,
          (trackInner (a + 30 * (m : Int)) (if m = 0 then ft else true) rest).2) := by
  intro m
  induction m with
  | zero =>
    intro a ft _
    simp [searchTurns]
  | succ m ih =>
    intro a ft h
    have ha : a < 360 := by push_cast at h; omega
    have hstep := ih (a + 30) true (by push_cast at h; omega)
    have e : a + 30 + 30 * (m : Int) = a + 30 * ((m + 1 : Nat) : Int) := by
      push_cast; ring
    simp only [List.replicate_succ, List.cons_append, trackInner, if_pos ha, List.append_eq]
    rw [hstep, e]
    simp [searchTurns]

/-- C18: from an accumulated search angle of 0, a run of m lost answers with
m at most 12 makes the watcher perform m search turns of 30 degrees (each
followed by a 200 ms delay) and carry on with the accumulated angle 30 m; a run
of 13 makes it perform 12 search turns and then post scan and return, with no
further turn. -/
theorem tracking_gives_up (ft : Bool) (rest : List (Option Sight)) :
    (∀ m : Nat, m ≤ 12 →
      trackInner 0 ft (List.replicate m none ++ rest) =
        (searchTurns m ++
            (trackInner (30 * (m : Int)) (if m = 0 then ft else true) rest).1,
          (trackInner (30 * (m : Int)) (if m = 0 then ft else true) rest).2)) ∧
    trackInner 0 ft (List.replicate 13 none ++ rest) =
      (searchTurns 12 ++ [Effect.send CarOp.scan], true) ∧
    (searchTurns 12).count (Effect.callTurn 30) = 12 := by
  refine ⟨?_, ?_, by decide⟩
  · intro m hm
    have h := trackInner_lost_run rest m 0 ft (by omega)
    simpa using h
  · have h := trackInner_lost_run (none :: rest) 12 0 ft (by norm_num)
    have e : List.replicate 13 (none : Option Sight) ++ rest =
        List.replicate 12 none ++ (none :: rest) := by
      simp [List.replicate]
    rw [e, h]
    simp [trackInner]

/-! ### Navigation loop -/

theorem selfDrivingRun_idle :
    ∀ (inputs : List IterInput) (v : NavVars),
      v.op = CarOp.forward → v.fwd = true → v.chOp = [] →
      (∀ j ∈ inputs, j.posted = []) →
      selfDrivingRun inputs v = (v, List.replicate inputs.length (Effect.delay 50)) := by
  intro inputs
  induction inputs with
  | nil => intro v _ _ _ _; rfl
  | cons i rest ih =>
    intro v hop hfwd hch hp
    have hi : i.posted = [] := hp i (List.mem_cons_self _ _)
    have hrest : ∀ j ∈ rest, j.posted = [] := fun j hj => hp j (List.mem_cons_of_mem _ hj)
    rcases v with ⟨fwd, retry, mA, xA, mind, maxd, op, ch⟩
    simp only at hop hfwd hch
    subst hop hfwd hch
    have hiter : selfDrivingIter i ⟨true, retry, mA, xA, mind, maxd, CarOp.forward, []⟩ =
        (⟨true, retry, mA, xA, mind, maxd, CarOp.forward, []⟩, [Effect.delay 50]) := by
      simp [selfDrivingIter, hi, poll, selfDrivingBody]
    simp only [selfDrivingRun, hiter,
      ih ⟨true, retry, mA, xA, mind, maxd, CarOp.forward, []⟩ rfl rfl rfl hrest]
    simp [List.replicate_succ]

/-- C19: in a run of consecutive iterations whose op is forward (entered with
the marker `fwd` false, nothing posted on the channel), the motors are started
and the watchers spawned in the first iteration only; every later iteration
only waits 50 ms, and the marker is then true.  Every other op of the loop
(backward, stop, scan, turn, pause) sets the marker to false, so that the
forward iteration after it starts the motors and spawns the watchers again. -/
theorem forward_run_spawns_once (i : IterInput) (rest : List IterInput) (v : NavVars)
    (hop : v.op = CarOp.forward) (hfwd : v.fwd = false) (hch : v.chOp = [])
    (hp : ∀ j ∈ i :: rest, j.posted = []) :
    (selfDrivingRun (i :: rest) v).2 =
      Effect.engineForward :: Effect.spawnDetecting ::
        List.replicate (rest.length + 1) (Effect.delay 50) ∧
    (selfDrivingRun (i :: rest) v).1.fwd = true ∧
    ∀ (w : NavVars) (op : CarOp) (s s2 : Nat → ℚ), op ∈ navOpsNotForward →
      (selfDrivingBody s { w with op := op }).1.fwd = false ∧
      (selfDrivingBody s2
        { (selfDrivingBody s { w with op := op }).1 with op := CarOp.forward }).2 =
        [Effect.engineForward, Effect.spawnDetecting, Effect.delay 50] := by
  have hi : i.posted = [] := hp i (List.mem_cons_self _ _)
  have hrest : ∀ j ∈ rest, j.posted = [] := fun j hj => hp j (List.mem_cons_of_mem _ hj)
  rcases v with ⟨fwd, retry, mA, xA, mind, maxd, op, ch⟩
  simp only at hop hfwd hch
  subst hop hfwd hch
  have hiter : selfDrivingIter i ⟨false, retry, mA, xA, mind, maxd, CarOp.forward, []⟩ =
      (⟨true, retry, mA, xA, mind, maxd, CarOp.forward, []⟩,
        [Effect.engineForward, Effect.spawnDetecting, Effect.delay 50]) := by
    simp [selfDrivingIter, hi, poll, selfDrivingBody]
  have hidle := selfDrivingRun_idle rest
    ⟨true, retry, mA, xA, mind, maxd, CarOp.forward, []⟩ rfl rfl rfl hrest
  refine ⟨?_, ?_, ?_⟩
  · simp only [selfDrivingRun, hiter, hidle]
    simp [List.replicate_succ]
  · simp only [selfDrivingRun, hiter, hidle]
  · intro w op s s2 hmem
    simp only [navOpsNotForward, List.mem_cons, List.mem_singleton, List.not_mem_nil,
      or_false] at hmem
    rcases hmem with h | h | h | h | h <;> subst h <;> simp [selfDrivingBody]

/-- C19 witness: three forward iterations from the state at loop entry. -/
theorem forward_run_spawns_once_witness :
    (selfDrivingRun [⟨[], fun _ => 0⟩, ⟨[], fun _ => 0⟩, ⟨[], fun _ => 0⟩] NavVars.init).2 =
      Effect.engineForward :: Effect.spawnDetecting ::
        List.replicate (2 + 1) (Effect.delay 50) ∧
    (selfDrivingRun [⟨[], fun _ => 0⟩, ⟨[], fun _ => 0⟩, ⟨[], fun _ => 0⟩] NavVars.init).1.fwd
      = true ∧
    ∀ (w : NavVars) (op : CarOp) (s s2 : Nat → ℚ), op ∈ navOpsNotForward →
      (selfDrivingBody s { w with op := op }).1.fwd = false ∧
      (selfDrivingBody s2
        { (selfDrivingBody s { w with op := op }).1 with op := CarOp.forward }).2 =
        [Effect.engineForward, Effect.spawnDetecting, Effect.delay 50] :=
  forward_run_spawns_once ⟨[], fun _ => 0⟩ [⟨[], fun _ => 0⟩, ⟨[], fun _ => 0⟩]
    NavVars.init rfl rfl rfl (by simp)

/-- C20 (the code breaks it): a sweep in which every angle reads 20 cm gives
min distance 20 (not below 10) and max distance 20 (below 40) with retry 0,
and the scan case sends turn, where the flow chart above `selfDriving` goes
back to stop. -/
theorem scan_ignores_max_distance :
    (scan (fun _ => 20)).mind = 20 ∧ (scan (fun _ => 20)).maxd = 20 ∧
    NavVars.init.retry = 0 ∧
    (selfDrivingBody (fun _ => 20) { NavVars.init with op := CarOp.scan }).2 =
      [Effect.callScan, Effect.send CarOp.turn] ∧
    (selfDrivingBody (fun _ => 20) { NavVars.init with op := CarOp.scan }).1.chOp =
      [CarOp.turn] := by
  have hs : scan (fun _ => 20) = ⟨20, 20, -90, -90⟩ := by
    norm_num [scan, scanLoop, measure, retryDist, scanningAngles,
      ScanResult.update, ScanResult.init]
  have ht : scanTransition 20 (-90) 0 = (CarOp.turn, 0) := by
    norm_num [scanTransition]
  refine ⟨by rw [hs], by rw [hs], rfl, ?_, ?_⟩
  · simp only [selfDrivingBody, NavVars.init, hs, ht]
  · simp only [selfDrivingBody, NavVars.init, hs, ht]
    rfl

/-! ### Scan result and the turn table; self-driving without the sensor -/

theorem sweepReadings_angle (sensor : Nat → ℚ) :
    ∀ (as : List Int) (k : Nat) (p : Int × ℚ), p ∈ sweepReadings sensor as k → p.1 ∈ as := by
  intro as
  induction as with
  | nil => intro k p hp; simp [sweepReadings] at hp
  | cons ang rest ih =>
    intro k p hp
    simp only [sweepReadings, List.mem_cons] at hp
    rcases hp with hp | hp
    · rw [hp]; exact List.mem_cons_self _ _
    · exact List.mem_cons_of_mem _ (ih _ p hp)

theorem scanningAngles_supported (a : Int) (h : a ∈ scanningAngles) :
    (turnAngleCounts.lookup a).isSome = true := by
  simp only [scanningAngles, List.mem_cons, List.mem_singleton, List.not_mem_nil,
    or_false] at h
  rcases h with h | h | h | h | h | h | h | h | h | h <;> subst h <;> rfl

theorem scan_maxdAngle_zero (sensor : Nat → ℚ) (h : validReadings sensor = []) :
    scan sensor = ScanResult.init := by
  apply scanLoop_no_valid sensor scanningAngles ScanResult.init 0
  intro p hp
  by_contra hneg
  have hmem : p ∈ validReadings sensor :=
    List.mem_filter.mpr ⟨hp, by simpa using not_lt.mp hneg⟩
  rw [h] at hmem
  exact absurd hmem (List.not_mem_nil _)

/-- C21: for every sensor stream, the maxdAngle returned by `scan` is a key of
the turn table if and only if at least one angle ended with a valid reading.
When none did, maxdAngle is 0, `turn` of it makes no motor or encoder call, and
the scan iteration followed by the turn iteration of the loop gives the trace:
scan, send turn, turn(0), delay 150, send forward, leaving forward on the
channel. -/
theorem scan_feeds_turn (sensor : Nat → ℚ) :
    ((turnAngleCounts.lookup (scan sensor).maxdAngle).isSome = true ↔
      validReadings sensor ≠ []) ∧
    (validReadings sensor = [] →
      (scan sensor).maxdAngle = 0 ∧
      (∀ (pulses : Nat → Nat) (fuel : Nat),
        turn pulses fuel (scan sensor).maxdAngle = some []) ∧
      ∀ (v : NavVars) (i2 : IterInput), v.op = CarOp.scan → v.chOp = [] →
        i2.posted = [] →
        (selfDrivingRun [⟨[], sensor⟩, i2] v).2 =
          [Effect.callScan, Effect.send CarOp.turn, Effect.callTurn 0, Effect.delay 150,
            Effect.send CarOp.forward] ∧
        (selfDrivingRun [⟨[], sensor⟩, i2] v).1.chOp = [CarOp.forward]) := by
  have hzero : ∀ (pulses : Nat → Nat) (fuel : Nat), turn pulses fuel 0 = some [] := by
    intro pulses fuel
    have hl : turnAngleCounts.lookup (0 : Int) = none := rfl
    simp [turn, hl]
  refine ⟨⟨?_, ?_⟩, ?_⟩
  · intro hsome hnil
    rw [scan_maxdAngle_zero sensor hnil] at hsome
    exact absurd hsome (by decide)
  · intro hne
    obtain ⟨p, hp⟩ := List.exists_mem_of_ne_nil _ hne
    obtain ⟨_, hmax, hmaxAt⟩ := scanLoop_max sensor scanningAngles ScanResult.init 0
    have hp0 : 0 ≤ p.2 := by
      have := (List.mem_filter.mp hp).2
      simpa using this
    have hmem : ((scan sensor).maxdAngle, (scan sensor).maxd) ∈ validReadings sensor := by
      rcases hmaxAt with ⟨hm, _⟩ | hmem
      · exfalso
        have h1 := hmax p hp
        rw [hm] at h1
        have h2 : ScanResult.init.maxd = -9999 := rfl
        rw [h2] at h1
        linarith
      · exact hmem
    exact scanningAngles_supported _
      (sweepReadings_angle sensor scanningAngles 0 _ (List.mem_filter.mp hmem).1)
  · intro hnil
    have hs := scan_maxdAngle_zero sensor hnil
    refine ⟨by rw [hs]; rfl, ?_, ?_⟩
    · intro pulses fuel
      rw [hs]
      exact hzero pulses fuel
    · intro v i2 hop hch hi2
      rcases v with ⟨fwd, retry, mA, xA, mind, maxd, op, ch⟩
      simp only at hop hch
      subst hop hch
      have ht : ∀ r : Int, scanTransition 9999 0 r = (CarOp.turn, 0) := by
        intro r
        norm_num [scanTransition]
      simp [selfDrivingRun, selfDrivingIter, selfDrivingBody, poll, drain, hi2, hs,
        ScanResult.init, ht]

/-- C22: on a car without the distance sensor, `selfDrivingOn` from a state
with selfdriving false ends with selfdriving true and the two other flags
false; its trace is the two clears, the delay, the set and the call of
`selfDriving`, which returns before its loop; no effect of the trace is a
horn, motor or servo call; and `GetState` then reports (true, false, false)
with no loop running. -/
theorem selfDriving_without_sensor (car : Car) (c : Flags)
    (hu : car.ult = false) (hc : c.selfdriving = false) :
    (selfDrivingOnWith car c).1 = ⟨true, false, false⟩ ∧
    (selfDrivingOnWith car c).2.1 =
      [Effect.writeFlag Mode.selfTracking false, Effect.writeFlag Mode.speechDriving false,
        Effect.delay 1000, Effect.writeFlag Mode.selfDriving true, Effect.runSelfDriving] ∧
    (∀ e ∈ (selfDrivingOnWith car c).2.1, e.isActuation = false) ∧
    (selfDrivingOnWith car c).2.2 = false ∧
    getState (selfDrivingOnWith car c).1 = (true, false, false) := by
  rcases c with ⟨a, b, d⟩
  simp only at hc
  subst hc
  have h1 : selfDrivingOnWith car ⟨false, b, d⟩ =
      (⟨true, false, false⟩,
        [Effect.writeFlag Mode.selfTracking false, Effect.writeFlag Mode.speechDriving false,
          Effect.delay 1000, Effect.writeFlag Mode.selfDriving true, Effect.runSelfDriving],
        false) := by
    simp [selfDrivingOnWith, selfDrivingOn, selfDrivingEntry, emit, Flags.set, hu]
  rw [h1]
  refine ⟨rfl, rfl, ?_, rfl, rfl⟩
  intro e he
  simp only [List.mem_cons, List.mem_singleton, List.not_mem_nil, or_false] at he
  rcases he with h | h | h | h | h <;> subst h <;> rfl

/-- C22 witness: a car with horn, light and servo but no distance sensor,
enabled from the initial flags. -/
theorem selfDriving_without_sensor_witness :
    (selfDrivingOnWith ⟨true, true, true, false, false⟩ Flags.init).1 =
      ⟨true, false, false⟩ ∧
    (selfDrivingOnWith ⟨true, true, true, false, false⟩ Flags.init).2.1 =
      [Effect.writeFlag Mode.selfTracking false, Effect.writeFlag Mode.speechDriving false,
        Effect.delay 1000, Effect.writeFlag Mode.selfDriving true, Effect.runSelfDriving] ∧
    (∀ e ∈ (selfDrivingOnWith ⟨true, true, true, false, false⟩ Flags.init).2.1,
      e.isActuation = false) ∧
    (selfDrivingOnWith ⟨true, true, true, false, false⟩ Flags.init).2.2 = false ∧
    getState (selfDrivingOnWith ⟨true, true, true, false, false⟩ Flags.init).1 =
      (true, false, false) :=
  selfDriving_without_sensor ⟨true, true, true, false, false⟩ Flags.init rfl rfl

end RpiCar
